import Mathlib

/-!
# Rate-limited classification cycle of the fruit-freshness / trash-classify samples

A shallow embedding of `src/scenario/cnn_apple_fresh.c` and of its clone
`src/scenario/cnn_trash_classify/cnn_trash_classify.c`:

* the interpretation step `FruitFreshnessFlag` / `CnnTrashClassifyFlag`,
  with the single-precision arithmetic of the threshold test and the
  `"%s %.2f"` formatting made explicit;
* the classification cycle `FruitFreshnessCal` / `CnnTrashClassifyCal` as a
  function of the static state, the clock reading and the return codes of the
  collaborators, producing a return code, the next static state and the list of
  collaborator calls made.
-/

namespace FruitFresh

/-! ## Constants of the source -/

/-- The macro `SCORE_MAX`. -/
def SCORE_MAX : Nat := 4096

/-- The macro `RET_NUM_MAX`, the length of `resBuf`. -/
def RET_NUM_MAX : Nat := 4

/-- The macro `THRESH_MIN`. -/
def THRESH_MIN : Nat := 30

/-- The macro `DETECTION_INTERVAL_SEC`. -/
def DETECTION_INTERVAL_SEC : Nat := 10

/-- The value `HI_SUCCESS`. -/
def HI_SUCCESS : Int := 0

/-- The table `fruitTypes[10]`, identical in both source files. -/
def fruitTypes : List String :=
  ["fresh apple", "fresh banana", "fresh mango", "fresh orange", "fresh strawberry",
   "rotten apple", "rotten banana", "rotten mango", "rotten orange", "rotten strawberry"]

/-- One entry of the result buffer, `RecogNumInfo`. The declaration of the
struct is in a header that is not part of the sources at hand; `num` is kept a
signed integer so that the guard `item->num >= 0` of the source has a meaning,
and `score` is the non-negative raw score. -/
structure RecogNumInfo where
  num : Int
  score : Nat
  deriving DecidableEq, Repr

/-! ## Single-precision arithmetic of the threshold test

Every value the interpretation step computes in `HI_FLOAT` is a non-negative
multiple of `1/4096` (an integer score divided by `SCORE_MAX = 2^12`, and that times
`100`), far from the overflow and underflow ranges of binary32. Such a value is
represented by its numerator over `4096`; the only rounding is the rounding to
24 significant bits, which acts on the numerator alone. -/

/-- Round to 24 significant bits, to nearest, ties to even: the rounding of
every binary32 operation (values here are in the normal range). -/
def roundSig24 (n : Nat) : Nat :=
  if n < 2 ^ 24 then n
  else
    let k := Nat.log2 n - 23
    let q := n / 2 ^ k
    let r := n % 2 ^ k
    let half := 2 ^ (k - 1)
    if r < half then q * 2 ^ k
    else if half < r then (q + 1) * 2 ^ k
    else if q % 2 = 0 then q * 2 ^ k
    else (q + 1) * 2 ^ k

/-- The value `confidence = (HI_FLOAT)item->score / SCORE_MAX`, as a numerator over
`4096`: the conversion of the integer to binary32 rounds, the division by
`2^12` is exact. -/
def confidence (score : Nat) : Nat := roundSig24 score

/-- The value `confidence * 100` in binary32, as a numerator over `4096`. -/
def confidenceTimes100 (score : Nat) : Nat := roundSig24 (confidence score * 100)

/-- The test `confidence * 100 < THRESH_MIN` of the source. -/
def belowThreshold (score : Nat) : Bool :=
  decide (confidenceTimes100 score < THRESH_MIN * SCORE_MAX)

/-! ## Formatting -/

/-- Quotient of `a` by `b` rounded to nearest, ties to even. -/
def divRoundHalfEven (a b : Nat) : Nat :=
  let q := a / b
  let r := a % b
  if 2 * r < b then q
  else if b < 2 * r then q + 1
  else if q % 2 = 0 then q else q + 1

/-- The conversion `%.2f` of the C library applied to the value `c / 4096`
(the float is promoted to double without change): the number of hundredths
nearest to the value, ties to even, written as integer part, a point and two
digits. -/
def formatF2 (c : Nat) : String :=
  let h := divRoundHalfEven (c * 100) SCORE_MAX
  Nat.repr (h / 100) ++ "." ++ String.mk [Nat.digitChar (h % 100 / 10), Nat.digitChar (h % 10)]

/-- The call `snprintf_s(buf, size, size - 1, ...)` of the bounds-checking C
library on the zero-initialised buffer, for the already formatted text `s`: at
most `size - 1` characters are stored before the terminating zero (a longer
text is cut there); with `size = 0` nothing is stored. -/
def snprintf_s (size : Nat) (s : String) : String :=
  String.mk (s.data.take (size - 1))

/-! ## The interpretation step -/

/-- What the scan of `FruitFreshnessFlag` leaves behind: the text formatted for
the selected entry (if one was found), and the indices at which the result
buffer and the label table were read, in order. -/
structure FlagScan where
  text : Option String
  itemReads : List Nat
  tableReads : List Int
  deriving DecidableEq, Repr

/-- Record one more read of the result buffer in front of a scan. -/
def FlagScan.afterRead (i : Nat) (s : FlagScan) : FlagScan :=
  { s with itemReads := i :: s.itemReads }

/-- The `for` loop of `FruitFreshnessFlag` with `k` iterations left, that is at
`i = bound - k`. A read outside `items` or outside `fruitTypes` has no defined
result: `none`. -/
def flagLoop (items : List RecogNumInfo) (bound : Nat) : Nat → Option FlagScan
  | 0 => some { text := none, itemReads := [], tableReads := [] }
  | k + 1 =>
    let i := bound - (k + 1)
    match items[i]? with
    | none => none
    | some item =>
      if belowThreshold item.score then
        (flagLoop items bound k).map (FlagScan.afterRead i)
      else if 0 ≤ item.num ∧ item.num ≤ 9 then
        match fruitTypes[item.num.toNat]? with
        | none => none
        | some label =>
          some { text := some (label ++ " " ++ formatF2 (confidence item.score)),
                 itemReads := [i], tableReads := [item.num] }
      else
        (flagLoop items bound k).map (FlagScan.afterRead i)

/-- The output of the interpretation step: the content of `buf` on return, the
reads made, and the return value. -/
structure FlagOut where
  buf : String
  itemReads : List Nat
  tableReads : List Int
  ret : Int
  deriving DecidableEq, Repr

/-- The function `FruitFreshnessFlag(items, itemNum, buf, size)` on a
zero-initialised `buf`. The loop counter is a `HI_U32`, so the signed `itemNum`
is compared as an unsigned 32-bit value. -/
def FruitFreshnessFlag (items : List RecogNumInfo) (itemNum : Int) (size : Nat) :
    Option FlagOut :=
  let bound := (itemNum % 4294967296).toNat
  match flagLoop items bound bound with
  | none => none
  | some scan =>
    some { buf := snprintf_s size (scan.text.getD "No fruit detected"),
           itemReads := scan.itemReads,
           tableReads := scan.tableReads,
           ret := HI_SUCCESS }

/-- The function `CnnTrashClassifyFlag` of the clone: the same text. -/
def CnnTrashClassifyFlag (items : List RecogNumInfo) (itemNum : Int) (size : Nat) :
    Option FlagOut :=
  let bound := (itemNum % 4294967296).toNat
  match flagLoop items bound bound with
  | none => none
  | some scan =>
    some { buf := snprintf_s size (scan.text.getD "No fruit detected"),
           itemReads := scan.itemReads,
           tableReads := scan.tableReads,
           ret := HI_SUCCESS }

/-! ## The classification cycle -/

/-- The C type `struct timeval`. -/
structure Timeval where
  tv_sec : Int
  tv_usec : Int
  deriving DecidableEq, Repr

/-- The value of `elapsedSec` at the time gate, in microseconds, for the
stored `lastDetectTime` and the reading `currentTime` of the clock. The source
computes the seconds `(Δ tv_sec) + (Δ tv_usec) / 1000000.0` in double precision
and compares them with `0` and with `10` only; for readings of a clock the
value is either equal to one of them or at least a microsecond away, so the
comparisons are those of the exact number of microseconds. It stays `0` while
`lastDetectTime.tv_sec` is `0`. -/
def elapsedMicros (lastDetectTime currentTime : Timeval) : Int :=
  if lastDetectTime.tv_sec ≠ 0 then
    (currentTime.tv_sec - lastDetectTime.tv_sec) * 1000000 +
      (currentTime.tv_usec - lastDetectTime.tv_usec)
  else 0

/-- The condition `elapsedSec > 0 && elapsedSec < DETECTION_INTERVAL_SEC` under
which the cycle returns at once. -/
def skipsDetection (lastDetectTime currentTime : Timeval) : Bool :=
  decide (0 < elapsedMicros lastDetectTime currentTime ∧
    elapsedMicros lastDetectTime currentTime < (DETECTION_INTERVAL_SEC : Int) * 1000000)

/-- The calls a cycle makes to its collaborators (frame pipeline, inference,
overlay, video output). The diagnostic prints are not recorded. -/
inductive Call where
  | MppFrmResize
  | FrmToOrigImg
  | ImgYuvCrop
  | CnnCalImg
  | OsdsSetRgn (text : String) (x y : Nat)
  | HI_MPI_VPSS_SendFrame
  | IveImgDestroy
  | MppFrmDestroy
  deriving DecidableEq, Repr

/-- What the collaborators and the clock answer during one call of the cycle:
the reading of `gettimeofday`, the return code of every collaborator, and what
`CnnCalImg` stores in `resBuf` and `resLen`. -/
structure CalEnv where
  currentTime : Timeval
  resizeRet : Int
  frmToOrigImgRet : Int
  cropRet : Int
  cnnRet : Int
  cnnResults : List RecogNumInfo
  resLen : Int
  osdsSetRgnRet : Int
  sendFrameRet : Int
  deriving DecidableEq, Repr

/-- The array `RecogNumInfo resBuf[RET_NUM_MAX] = {0}` after `CnnCalImg`, which
is given its length and stores at most that many entries. -/
def resBuf (env : CalEnv) : List RecogNumInfo :=
  (env.cnnResults ++ List.replicate RET_NUM_MAX (⟨0, 0⟩ : RecogNumInfo)).take RET_NUM_MAX

/-- The result of one call of a cycle: the value returned, the static
variables afterwards, and the collaborator calls made, in order. -/
structure CalOut (σ : Type) where
  ret : Int
  st : σ
  calls : List Call
  deriving DecidableEq, Repr

/-- Modelled from the spec: the macro `SAMPLE_CHECK_EXPR_RET(expr, ret, fmt...)`
is declared in a header that is not among the sources; when `expr` holds the
function prints and returns `ret` at once ("on failure, abort the cycle and
propagate the specific failure code"), otherwise it goes on. -/
def SAMPLE_CHECK_EXPR_RET {α : Type} (expr : Bool) (ret : α) (rest : α) : α :=
  if expr then ret else rest

/-- Modelled from the spec: the macro `HI_ASSERT(expr)` is declared in a header
that is not among the sources; a failed assertion ends the process, so the call
has no result. -/
def HI_ASSERT {α : Type} (expr : Bool) (rest : Option α) : Option α :=
  if expr then rest else none

/-- Modelled from the spec: the helper `HiStrxfrm(dst, src, n)` is defined
outside the sources; it stores `src` in `dst`, at most `n - 1` characters
("update the stored previous status"). -/
def HiStrxfrm (src : String) (n : Nat) : String :=
  String.mk (src.data.take (n - 1))

/-- The static variables of `FruitFreshnessCal`. -/
structure FruitState where
  lastDetectTime : Timeval
  prevOsd : String
  deriving DecidableEq, Repr

/-- The initial values `lastDetectTime = {0}` and `prevOsd = ""`. -/
def FruitState.init : FruitState :=
  { lastDetectTime := ⟨0, 0⟩, prevOsd := "" }

/-- The function `FruitFreshnessCal`. `NORM_BUF_SIZE`, the size of `osdBuf` and
`prevOsd`, is a macro of a header that is not among the sources and is a
parameter. The assertion compares `resLen` with a `sizeof` quotient, that is
as an unsigned value: it holds when `0 ≤ resLen ≤ RET_NUM_MAX`. The text of the
overlay region is `osdBuf`, at `(TXT_BEGX, TXT_BEGY) = (20, 20)`. -/
def FruitFreshnessCal (NORM_BUF_SIZE : Nat) (st : FruitState) (env : CalEnv) :
    Option (CalOut FruitState) :=
  if skipsDetection st.lastDetectTime env.currentTime then
    some { ret := HI_SUCCESS, st := st, calls := [] }
  else
    let st1 : FruitState := { st with lastDetectTime := env.currentTime }
    SAMPLE_CHECK_EXPR_RET (decide (env.resizeRet ≠ HI_SUCCESS))
      (some { ret := env.resizeRet, st := st1, calls := [Call.MppFrmResize] }) <|
    SAMPLE_CHECK_EXPR_RET (decide (env.frmToOrigImgRet ≠ HI_SUCCESS))
      (some { ret := env.frmToOrigImgRet, st := st1,
              calls := [Call.MppFrmResize, Call.FrmToOrigImg] }) <|
    SAMPLE_CHECK_EXPR_RET (decide (env.cropRet < 0))
      (some { ret := env.cropRet, st := st1,
              calls := [Call.MppFrmResize, Call.FrmToOrigImg, Call.ImgYuvCrop] }) <|
    SAMPLE_CHECK_EXPR_RET (decide (env.cnnRet < 0))
      (some { ret := env.cnnRet, st := st1,
              calls := [Call.MppFrmResize, Call.FrmToOrigImg, Call.ImgYuvCrop,
                        Call.CnnCalImg] }) <|
    HI_ASSERT (decide (0 ≤ env.resLen ∧ env.resLen ≤ (RET_NUM_MAX : Int))) <|
    match FruitFreshnessFlag (resBuf env) env.resLen NORM_BUF_SIZE with
    | none => none
    | some flag =>
      SAMPLE_CHECK_EXPR_RET (decide (flag.ret < 0))
        (some { ret := flag.ret, st := st1,
                calls := [Call.MppFrmResize, Call.FrmToOrigImg, Call.ImgYuvCrop,
                          Call.CnnCalImg] }) <|
      if flag.buf ≠ st.prevOsd then
        some { ret := env.sendFrameRet,
               st := { st1 with prevOsd := HiStrxfrm flag.buf NORM_BUF_SIZE },
               calls := [Call.MppFrmResize, Call.FrmToOrigImg, Call.ImgYuvCrop,
                         Call.CnnCalImg, Call.OsdsSetRgn flag.buf 20 20,
                         Call.HI_MPI_VPSS_SendFrame, Call.IveImgDestroy,
                         Call.MppFrmDestroy] }
      else
        some { ret := flag.ret, st := st1,
               calls := [Call.MppFrmResize, Call.FrmToOrigImg, Call.ImgYuvCrop,
                         Call.CnnCalImg, Call.IveImgDestroy, Call.MppFrmDestroy] }

/-- The static variable of `CnnTrashClassifyCal`. -/
structure TrashState where
  lastDetectTime : Timeval
  deriving DecidableEq, Repr

/-- The initial value `lastDetectTime = {0}`. -/
def TrashState.init : TrashState :=
  { lastDetectTime := ⟨0, 0⟩ }

/-- The function `CnnTrashClassifyCal`: the result is printed, there is no
overlay update and no frame is sent. -/
def CnnTrashClassifyCal (NORM_BUF_SIZE : Nat) (st : TrashState) (env : CalEnv) :
    Option (CalOut TrashState) :=
  if skipsDetection st.lastDetectTime env.currentTime then
    some { ret := HI_SUCCESS, st := st, calls := [] }
  else
    let st1 : TrashState := { lastDetectTime := env.currentTime }
    SAMPLE_CHECK_EXPR_RET (decide (env.resizeRet ≠ HI_SUCCESS))
      (some { ret := env.resizeRet, st := st1, calls := [Call.MppFrmResize] }) <|
    SAMPLE_CHECK_EXPR_RET (decide (env.frmToOrigImgRet ≠ HI_SUCCESS))
      (some { ret := env.frmToOrigImgRet, st := st1,
              calls := [Call.MppFrmResize, Call.FrmToOrigImg] }) <|
    SAMPLE_CHECK_EXPR_RET (decide (env.cropRet < 0))
      (some { ret := env.cropRet, st := st1,
              calls := [Call.MppFrmResize, Call.FrmToOrigImg, Call.ImgYuvCrop] }) <|
    SAMPLE_CHECK_EXPR_RET (decide (env.cnnRet < 0))
      (some { ret := env.cnnRet, st := st1,
              calls := [Call.MppFrmResize, Call.FrmToOrigImg, Call.ImgYuvCrop,
                        Call.CnnCalImg] }) <|
    HI_ASSERT (decide (0 ≤ env.resLen ∧ env.resLen ≤ (RET_NUM_MAX : Int))) <|
    match CnnTrashClassifyFlag (resBuf env) env.resLen NORM_BUF_SIZE with
    | none => none
    | some flag =>
      SAMPLE_CHECK_EXPR_RET (decide (flag.ret < 0))
        (some { ret := flag.ret, st := st1,
                calls := [Call.MppFrmResize, Call.FrmToOrigImg, Call.ImgYuvCrop,
                          Call.CnnCalImg] }) <|
      some { ret := flag.ret, st := st1,
             calls := [Call.MppFrmResize, Call.FrmToOrigImg, Call.ImgYuvCrop,
                       Call.CnnCalImg, Call.IveImgDestroy, Call.MppFrmDestroy] }

/-- A sequence of calls of a cycle on one instance: each call starts from the
static variables the one before left. There is no result when a call ends the
process. -/
def runCycles {σ : Type} (cal : σ → CalEnv → Option (CalOut σ)) :
    σ → List CalEnv → Option (List (CalOut σ))
  | _, [] => some []
  | st, env :: envs =>
    match cal st env with
    | none => none
    | some out => (runCycles cal out.st envs).map (fun outs => out :: outs)

/-! ## The interpretation step as the specification words it -/

/-- The confidence of an entry as the specification words it: `score / 4096`. -/
def specConfidence (score : Nat) : ℚ := (score : ℚ) / 4096

/-- The entries the specification lets through: `confidence × 100 ≥ 30` and a
label index in `[0, 9]`. -/
def specSelects (r : RecogNumInfo) : Prop :=
  30 ≤ specConfidence r.score * 100 ∧ 0 ≤ r.num ∧ r.num ≤ 9

instance specSelects_decidable : DecidablePred specSelects := fun r => by
  unfold specSelects
  infer_instance

/-- The formatted form of an entry: the text the source passes to `snprintf_s`
with the format `"%s %.2f"`. -/
def formatEntry (r : RecogNumInfo) : String :=
  (fruitTypes[r.num.toNat]?).getD "" ++ " " ++ formatF2 (confidence r.score)

/-- The status of the specification: the formatted form of the first entry it
lets through, in list order, and `"No fruit detected"` when there is none. -/
def specStatus (R : List RecogNumInfo) : String :=
  match R.find? (fun r => decide (specSelects r)) with
  | some r => formatEntry r
  | none => "No fruit detected"

/-! ## The cycle as the specification words it -/

/-- The time from `a` to `b`, in microseconds. -/
def microsBetween (a b : Timeval) : Int :=
  (b.tv_sec - a.tv_sec) * 1000000 + (b.tv_usec - a.tv_usec)

/-- The throttle property of the specification: for the time of the last real
work (if any) and the times of the calls to come, which calls perform real
work: a call does when no earlier call did or when at least 10 seconds have
passed since the last one that did. -/
def specRealWork : Option Timeval → List Timeval → List Bool
  | _, [] => []
  | lastWork, t :: ts =>
    let works : Bool :=
      match lastWork with
      | none => true
      | some l => decide ((DETECTION_INTERVAL_SEC : Int) * 1000000 ≤ microsBetween l t)
    works :: specRealWork (if works then some t else lastWork) ts

/-- A call performed real work when it called a collaborator. -/
def CalOut.realWork {σ : Type} (out : CalOut σ) : Bool :=
  !out.calls.isEmpty

/-- The times of the calls of a sequence that performed real work. -/
def executedTimes {σ : Type} : List CalEnv → List (CalOut σ) → List Timeval
  | env :: envs, out :: outs =>
    if out.realWork then env.currentTime :: executedTimes envs outs
    else executedTimes envs outs
  | _, _ => []

/-- The inference honours the length it is given: `0 ≤ resLen ≤ RET_NUM_MAX`, the
condition the cycle asserts. -/
def CalEnv.resLenOk (env : CalEnv) : Prop :=
  0 ≤ env.resLen ∧ env.resLen ≤ (RET_NUM_MAX : Int)

/-- The four steps before the interpretation succeed, as the source tests them,
and the assertion on `resLen` holds: the cycle, once past the time gate, gets
to the publish step. -/
def CalEnv.reachesPublish (env : CalEnv) : Prop :=
  env.resizeRet = HI_SUCCESS ∧ env.frmToOrigImgRet = HI_SUCCESS ∧ 0 ≤ env.cropRet ∧
    0 ≤ env.cnnRet ∧ env.resLenOk

instance CalEnv.resLenOk_decidable : DecidablePred CalEnv.resLenOk := fun env => by
  unfold CalEnv.resLenOk
  infer_instance

instance CalEnv.reachesPublish_decidable : DecidablePred CalEnv.reachesPublish := fun env => by
  unfold CalEnv.reachesPublish
  infer_instance

/-- The text in `osdBuf` after the interpretation step of a cycle. -/
def statusOf (NORM_BUF_SIZE : Nat) (env : CalEnv) : String :=
  ((FruitFreshnessFlag (resBuf env) env.resLen NORM_BUF_SIZE).map (fun out => out.buf)).getD ""

/-- Whether a call is an overlay update. -/
def Call.isOsdsSetRgn : Call → Bool
  | Call.OsdsSetRgn _ _ _ => true
  | _ => false

/-- The number of overlay updates among the calls of a cycle. -/
def overlayUpdates (calls : List Call) : Nat :=
  (calls.filter Call.isOsdsSetRgn).length

/-- For the stored `lastDetectTime` and the calls to come, the status each call
computes, for the calls that are executed (past the time gate) and get to the
publish step; `none` for a call that is skipped or that fails before. -/
def cycleStatuses (NORM_BUF_SIZE : Nat) : Timeval → List CalEnv → List (Option String)
  | _, [] => []
  | last, env :: envs =>
    if skipsDetection last env.currentTime then
      none :: cycleStatuses NORM_BUF_SIZE last envs
    else
      (if env.reachesPublish then some (statusOf NORM_BUF_SIZE env) else none)
        :: cycleStatuses NORM_BUF_SIZE env.currentTime envs

/-- The change-gated publish of the specification: for the status published
before and the statuses of the calls to come, the number of overlay updates of
each call: one when it computes a status that differs from the one published
before it, none otherwise. -/
def specOverlayUpdates : String → List (Option String) → List Nat
  | _, [] => []
  | prev, none :: rest => 0 :: specOverlayUpdates prev rest
  | prev, some status :: rest =>
    (if status ≠ prev then 1 else 0) :: specOverlayUpdates status rest

/-- The status published after each call: the status of the last cycle that
got to the publish step. -/
def specPublished : String → List (Option String) → List String
  | _, [] => []
  | prev, none :: rest => prev :: specPublished prev rest
  | _, some status :: rest => status :: specPublished status rest

/-- A call at the time `sec` seconds and `usec` microseconds in which every
collaborator returns `HI_SUCCESS` and the inference returns the single result
`(0, 3500)`. -/
def envAt (sec usec : Int) : CalEnv :=
  { currentTime := ⟨sec, usec⟩, resizeRet := 0, frmToOrigImgRet := 0, cropRet := 0,
    cnnRet := 0, cnnResults := [⟨0, 3500⟩], resLen := 1, osdsSetRgnRet := 0,
    sendFrameRet := 0 }

/-- Two executed cycles are spaced when they are at the same time or at least
`DETECTION_INTERVAL_SEC` seconds apart. -/
def Spaced (a b : Timeval) : Prop :=
  microsBetween a b = 0 ∨ (DETECTION_INTERVAL_SEC : Int) * 1000000 ≤ microsBetween a b

/-- What the two cycles have in common at the time gate, `last` being the static
`lastDetectTime` of the cycle: a call that the gate stops returns
success with the static variables unchanged and no collaborator called; a call
that it lets through returns (when the inference honours the length it is
given), has stored the time of the call and has called a collaborator. -/
structure GatedCycle {σ : Type} (cal : σ → CalEnv → Option (CalOut σ))
    (last : σ → Timeval) : Prop where
  skip : ∀ st env, skipsDetection (last st) env.currentTime = true →
    cal st env = some { ret := HI_SUCCESS, st := st, calls := [] }
  run : ∀ st env, skipsDetection (last st) env.currentTime = false → env.resLenOk →
    ∃ out, cal st env = some out ∧ last out.st = env.currentTime ∧ out.realWork = true

/-! ## Rounding lemmas -/

theorem roundSig24_of_lt {n : Nat} (h : n < 2 ^ 24) : roundSig24 n = n := by
  unfold roundSig24
  rw [if_pos h]

theorem roundSig24_bounds {n : Nat} (h : 2 ^ 24 ≤ n) :
    2 ^ 24 ≤ roundSig24 n ∧ roundSig24 n ≤ 2 ^ (Nat.log2 n + 1) := by
  have hn0 : n ≠ 0 := by
    intro h0
    rw [h0] at h
    norm_num at h
  have hL : 24 ≤ Nat.log2 n := (Nat.le_log2 hn0).2 h
  have hlow : 2 ^ Nat.log2 n ≤ n := Nat.log2_self_le hn0
  have hup : n < 2 ^ (Nat.log2 n + 1) := Nat.lt_log2_self
  obtain ⟨k, hk⟩ : ∃ k, Nat.log2 n = k + 24 := ⟨Nat.log2 n - 24, by omega⟩
  have hk1 : Nat.log2 n - 23 = k + 1 := by omega
  have hpow : 2 ^ Nat.log2 n = 2 ^ 23 * 2 ^ (k + 1) := by
    rw [hk, ← pow_add]
    congr 1
    omega
  have hpow1 : 2 ^ (Nat.log2 n + 1) = 2 ^ 24 * 2 ^ (k + 1) := by
    rw [hk, ← pow_add]
    congr 1
    omega
  have hpos : 0 < 2 ^ (k + 1) := Nat.pow_pos (by norm_num)
  have h2 : 2 ≤ 2 ^ (k + 1) := by
    calc 2 = 2 ^ 1 := by norm_num
      _ ≤ 2 ^ (k + 1) := Nat.pow_le_pow_right (by norm_num) (by omega)
  have hq : 2 ^ 23 ≤ n / 2 ^ (k + 1) := by
    rw [Nat.le_div_iff_mul_le hpos, ← hpow]
    exact hlow
  have hq1 : n / 2 ^ (k + 1) + 1 ≤ 2 ^ 24 := by
    have : n / 2 ^ (k + 1) < 2 ^ 24 := by
      rw [Nat.div_lt_iff_lt_mul hpos, ← hpow1]
      exact hup
    omega
  have hA : 2 ^ 24 ≤ n / 2 ^ (k + 1) * 2 ^ (k + 1) := by
    calc 2 ^ 24 = 2 ^ 23 * 2 := by norm_num
      _ ≤ n / 2 ^ (k + 1) * 2 ^ (k + 1) := Nat.mul_le_mul hq h2
  have hB : (n / 2 ^ (k + 1) + 1) * 2 ^ (k + 1) ≤ 2 ^ (Nat.log2 n + 1) := by
    rw [hpow1]
    exact Nat.mul_le_mul_right _ hq1
  have hC : n / 2 ^ (k + 1) * 2 ^ (k + 1) ≤ (n / 2 ^ (k + 1) + 1) * 2 ^ (k + 1) :=
    Nat.mul_le_mul_right _ (Nat.le_succ _)
  have hnlt : ¬ n < 2 ^ 24 := by omega
  unfold roundSig24
  rw [if_neg hnlt]
  simp only [hk1]
  split_ifs <;> constructor <;> omega

theorem roundSig24_ge {n : Nat} (h : 2 ^ 24 ≤ n) : 2 ^ 24 ≤ roundSig24 n :=
  (roundSig24_bounds h).1

theorem roundSig24_le_of_lt {n : Nat} (h : n < 2 ^ 32) : roundSig24 n ≤ 2 ^ 32 := by
  by_cases h24 : n < 2 ^ 24
  · rw [roundSig24_of_lt h24]
    omega
  · have hn0 : n ≠ 0 := by
      intro h0
      rw [h0] at h24
      norm_num at h24
    have hb := (roundSig24_bounds (Nat.le_of_not_lt h24)).2
    have hlog : Nat.log2 n < 32 := (Nat.log2_lt hn0).2 h
    calc roundSig24 n ≤ 2 ^ (Nat.log2 n + 1) := hb
      _ ≤ 2 ^ 32 := Nat.pow_le_pow_right (by norm_num) (by omega)

/-- The threshold test in integers: an entry is below the threshold exactly
when `100 * score < 30 * 4096`, for every score. -/
theorem belowThreshold_iff (s : Nat) : belowThreshold s = true ↔ 100 * s < 30 * 4096 := by
  unfold belowThreshold confidenceTimes100 confidence THRESH_MIN SCORE_MAX
  rw [decide_eq_true_iff]
  by_cases h1 : s < 2 ^ 24
  · rw [roundSig24_of_lt h1]
    by_cases h2 : s * 100 < 2 ^ 24
    · rw [roundSig24_of_lt h2]
      omega
    · have := roundSig24_ge (Nat.le_of_not_lt h2)
      norm_num at this h2 ⊢
      omega
  · have ha := roundSig24_ge (Nat.le_of_not_lt h1)
    have hb : 2 ^ 24 ≤ roundSig24 s * 100 := by omega
    have := roundSig24_ge hb
    norm_num at this h1 ⊢
    omega

theorem belowThreshold_eq_false_iff (s : Nat) :
    belowThreshold s = false ↔ 30 * 4096 ≤ 100 * s := by
  rw [← Bool.not_eq_true, belowThreshold_iff]
  omega

/-! ## Lemmas on the interpretation step -/

theorem specSelects_iff (r : RecogNumInfo) :
    specSelects r ↔ (belowThreshold r.score = false ∧ 0 ≤ r.num ∧ r.num ≤ 9) := by
  unfold specSelects specConfidence
  rw [belowThreshold_eq_false_iff]
  have h : (30 : ℚ) ≤ (r.score : ℚ) / 4096 * 100 ↔ 30 * 4096 ≤ 100 * r.score := by
    rw [div_mul_eq_mul_div, le_div_iff₀ (by norm_num : (0 : ℚ) < 4096)]
    constructor
    · intro h
      have h' : ((30 * 4096 : Nat) : ℚ) ≤ ((100 * r.score : Nat) : ℚ) := by
        push_cast
        linarith
      exact_mod_cast h'
    · intro h
      have h' : ((30 * 4096 : Nat) : ℚ) ≤ ((100 * r.score : Nat) : ℚ) := by
        exact_mod_cast h
      push_cast at h'
      linarith
  rw [h]

theorem fruitTypes_getElem? (n : Int) (h0 : 0 ≤ n) (h9 : n ≤ 9) :
    ∃ label, fruitTypes[n.toNat]? = some label ∧ label ∈ fruitTypes := by
  have hlt : n.toNat < fruitTypes.length := by
    have : fruitTypes.length = 10 := rfl
    omega
  exact ⟨fruitTypes[n.toNat], List.getElem?_eq_getElem hlt, List.getElem_mem hlt⟩

/-- The loop over a whole list finds the text of the first entry the
specification lets through. -/
theorem flagLoop_text (items : List RecogNumInfo) :
    ∀ k, k ≤ items.length →
      ∃ scan, flagLoop items items.length k = some scan ∧
        scan.text = ((items.drop (items.length - k)).find?
          (fun r => decide (specSelects r))).map formatEntry := by
  intro k
  induction k with
  | zero =>
    intro _
    refine ⟨_, rfl, ?_⟩
    simp
  | succ k ih =>
    intro hk
    obtain ⟨scan, hscan, htext⟩ := ih (by omega)
    have hi : items.length - (k + 1) < items.length := by omega
    have hdrop : items.drop (items.length - (k + 1)) =
        items[items.length - (k + 1)] :: items.drop (items.length - k) := by
      rw [List.drop_eq_getElem_cons hi]
      congr 2
      omega
    rw [hdrop]
    unfold flagLoop
    simp only [List.getElem?_eq_getElem hi]
    generalize items[items.length - (k + 1)] = item
    by_cases hb : belowThreshold item.score = true
    · have hns : ¬ specSelects item := by
        rw [specSelects_iff]
        simp [hb]
      simp only [hb, if_true, hscan, Option.map_some']
      refine ⟨_, rfl, ?_⟩
      simp [FlagScan.afterRead, htext, List.find?_cons, hns]
    · have hb' : belowThreshold item.score = false := by simpa using hb
      by_cases hn : 0 ≤ item.num ∧ item.num ≤ 9
      · obtain ⟨label, hlabel, _⟩ := fruitTypes_getElem? item.num hn.1 hn.2
        have hs : specSelects item := by
          rw [specSelects_iff]
          exact ⟨hb', hn⟩
        simp only [hb', if_pos hn, hlabel]
        refine ⟨_, rfl, ?_⟩
        simp [List.find?_cons, hs, formatEntry, hlabel]
      · have hns : ¬ specSelects item := by
          rw [specSelects_iff]
          tauto
        simp only [hb', if_neg hn, hscan, Option.map_some']
        refine ⟨_, rfl, ?_⟩
        simp [FlagScan.afterRead, htext, List.find?_cons, hns]

theorem snprintf_s_fits (size : Nat) (s : String) (h : s.length < size) :
    snprintf_s size s = s := by
  unfold snprintf_s
  have h' : s.data.length ≤ size - 1 := by
    have : s.data.length = s.length := rfl
    omega
  rw [List.take_of_length_le h']

theorem divRoundHalfEven_le (a b : Nat) : divRoundHalfEven a b ≤ a / b + 1 := by
  unfold divRoundHalfEven
  simp only
  split_ifs <;> omega

/-- The quotient rounded to nearest is within half a unit of the exact one. -/
theorem divRoundHalfEven_near (a b : Nat) (hb : 0 < b) :
    2 * a ≤ 2 * (b * divRoundHalfEven a b) + b ∧
      2 * (b * divRoundHalfEven a b) ≤ 2 * a + b := by
  have hdm : b * (a / b) + a % b = a := Nat.div_add_mod a b
  have hlt : a % b < b := Nat.mod_lt a hb
  unfold divRoundHalfEven
  simp only
  split_ifs
  · omega
  · rw [Nat.mul_add, Nat.mul_one]
    omega
  · omega
  · rw [Nat.mul_add, Nat.mul_one]
    omega

theorem formatF2_length (c : Nat) (hc : c ≤ 2 ^ 32) : (formatF2 c).length ≤ 10 := by
  unfold formatF2
  simp only [String.length_append]
  have hh : divRoundHalfEven (c * 100) SCORE_MAX ≤ c * 100 / SCORE_MAX + 1 :=
    divRoundHalfEven_le _ _
  have hq : c * 100 / SCORE_MAX ≤ 104857600 := by
    unfold SCORE_MAX
    have : c * 100 ≤ 2 ^ 32 * 100 := Nat.mul_le_mul_right _ hc
    omega
  have hr : (Nat.repr (divRoundHalfEven (c * 100) SCORE_MAX / 100)).length ≤ 7 :=
    Nat.repr_length _ 7 (by norm_num) (by omega)
  have h1 : ".".length = 1 := rfl
  have h2 : ∀ a b : Char, (String.mk [a, b]).length = 2 := fun _ _ => rfl
  rw [h1, h2]
  omega

theorem fruitTypes_length_le : ∀ label ∈ fruitTypes, label.length ≤ 17 := by
  decide

theorem formatEntry_length (r : RecogNumInfo) (h0 : 0 ≤ r.num) (h9 : r.num ≤ 9)
    (hs : r.score < 2 ^ 32) : (formatEntry r).length ≤ 28 := by
  obtain ⟨label, hlabel, hmem⟩ := fruitTypes_getElem? r.num h0 h9
  unfold formatEntry
  rw [hlabel]
  simp only [Option.getD_some, String.length_append]
  have h1 := fruitTypes_length_le label hmem
  have h2 := formatF2_length (confidence r.score) (roundSig24_le_of_lt hs)
  have h3 : " ".length = 1 := rfl
  omega

theorem specStatus_length (R : List RecogNumInfo) (hscore : ∀ r ∈ R, r.score < 2 ^ 32) :
    (specStatus R).length ≤ 28 := by
  unfold specStatus
  cases hf : R.find? (fun r => decide (specSelects r)) with
  | none => decide
  | some r =>
    have hsel : specSelects r := by simpa using List.find?_some hf
    have hmem : r ∈ R := List.mem_of_find?_eq_some hf
    exact formatEntry_length r hsel.2.1 hsel.2.2 (hscore r hmem)

/-- The loop bounded by the length of `R` does not look at what follows `R` in
the buffer. -/
theorem flagLoop_append (R rest : List RecogNumInfo) :
    ∀ k, k ≤ R.length → flagLoop (R ++ rest) R.length k = flagLoop R R.length k := by
  intro k
  induction k with
  | zero =>
    intro _
    rfl
  | succ k ih =>
    intro hk
    have hi : R.length - (k + 1) < R.length := by omega
    unfold flagLoop
    simp only [List.getElem?_append_left hi, ih (by omega)]

/-- The status `FruitFreshnessFlag` stores for the results `R` at the head of
the buffer, before the cut to the size of `buf`. -/
theorem FruitFreshnessFlag_buf (R rest : List RecogNumInfo) (size : Nat)
    (hlen : R.length < 2 ^ 31) :
    (FruitFreshnessFlag (R ++ rest) (R.length : Int) size).map (fun out => out.buf) =
      some (snprintf_s size (specStatus R)) := by
  have hbound : ((R.length : Int) % 4294967296).toNat = R.length := by
    have : (R.length : Int) % 4294967296 = R.length := by
      apply Int.emod_eq_of_lt <;> omega
    rw [this]
    exact Int.toNat_ofNat _
  obtain ⟨scan, hscan, htext⟩ := flagLoop_text R R.length (Nat.le_refl _)
  unfold FruitFreshnessFlag
  simp only [hbound, flagLoop_append R rest R.length (Nat.le_refl _), hscan, Option.map_some']
  rw [htext]
  simp only [Nat.sub_self, List.drop_zero]
  unfold specStatus
  cases R.find? (fun r => decide (specSelects r)) <;> rfl

theorem CnnTrashClassifyFlag_eq : CnnTrashClassifyFlag = FruitFreshnessFlag := rfl

/-- The scan of a buffer with at least `n` entries reads the buffer below `n`
only and the label table at `0..9` only; the text it formats is not empty. -/
theorem flagLoop_safe (items : List RecogNumInfo) (n : Nat) (hn : n ≤ items.length) :
    ∀ k, k ≤ n →
      ∃ scan, flagLoop items n k = some scan ∧
        (∀ i ∈ scan.itemReads, i < n) ∧ (∀ j ∈ scan.tableReads, 0 ≤ j ∧ j ≤ 9) ∧
        (∀ t, scan.text = some t → t.data ≠ []) := by
  intro k
  induction k with
  | zero =>
    intro _
    refine ⟨_, rfl, ?_, ?_, ?_⟩ <;> simp
  | succ k ih =>
    intro hk
    obtain ⟨scan, hscan, hitems, htable, htext⟩ := ih (by omega)
    have hi : n - (k + 1) < items.length := by omega
    have hin : n - (k + 1) < n := by omega
    unfold flagLoop
    simp only [List.getElem?_eq_getElem hi]
    generalize items[n - (k + 1)] = item
    by_cases hb : belowThreshold item.score = true
    · simp only [hb, if_true, hscan, Option.map_some']
      refine ⟨_, rfl, ?_, htable, htext⟩
      intro i hmem
      simp only [FlagScan.afterRead, List.mem_cons] at hmem
      rcases hmem with h | h
      · omega
      · exact hitems i h
    · have hb' : belowThreshold item.score = false := by simpa using hb
      by_cases hnum : 0 ≤ item.num ∧ item.num ≤ 9
      · obtain ⟨label, hlabel, _⟩ := fruitTypes_getElem? item.num hnum.1 hnum.2
        simp only [hb', if_pos hnum, hlabel]
        refine ⟨_, rfl, ?_, ?_, ?_⟩
        · intro i hmem
          simp only [List.mem_singleton] at hmem
          omega
        · intro j hmem
          simp only [List.mem_singleton] at hmem
          rw [hmem]
          exact hnum
        · intro t ht
          simp only [Option.some.injEq] at ht
          rw [← ht]
          simp [String.data_append]
      · simp only [hb', if_neg hnum, hscan, Option.map_some']
        refine ⟨_, rfl, ?_, htable, htext⟩
        intro i hmem
        simp only [FlagScan.afterRead, List.mem_cons] at hmem
        rcases hmem with h | h
        · omega
        · exact hitems i h

theorem FruitFreshnessFlag_safe (items : List RecogNumInfo) (n : Int) (size : Nat)
    (h0 : 0 ≤ n) (hn : n ≤ (items.length : Int)) (h32 : n < 4294967296) :
    ∃ out, FruitFreshnessFlag items n size = some out ∧ out.ret = HI_SUCCESS ∧
      (∀ i ∈ out.itemReads, (i : Int) < n) ∧ (∀ j ∈ out.tableReads, 0 ≤ j ∧ j ≤ 9) ∧
      (∃ text : String, text.data ≠ [] ∧ out.buf = snprintf_s size text) := by
  have hmod : n % 4294967296 = n := Int.emod_eq_of_lt h0 h32
  have hle : n.toNat ≤ items.length := by omega
  obtain ⟨scan, hscan, hitems, htable, htext⟩ :=
    flagLoop_safe items n.toNat hle n.toNat (Nat.le_refl _)
  unfold FruitFreshnessFlag
  simp only [hmod, hscan]
  refine ⟨_, rfl, rfl, ?_, htable, ⟨scan.text.getD "No fruit detected", ?_, rfl⟩⟩
  · intro i hmem
    have := hitems i hmem
    omega
  · cases ht : scan.text with
    | none => decide
    | some t => exact htext t ht

theorem resBuf_length (env : CalEnv) : (resBuf env).length = 4 := by
  unfold resBuf RET_NUM_MAX
  simp

theorem specStatus_skip (pre post : List RecogNumInfo) (bad : RecogNumInfo)
    (hbad : ¬ (0 ≤ bad.num ∧ bad.num ≤ 9)) :
    specStatus (pre ++ bad :: post) = specStatus (pre ++ post) := by
  have hns : ¬ specSelects bad := fun h => hbad h.2
  unfold specStatus
  simp [List.find?_append, List.find?_cons, hns]

theorem specStatus_none (R : List RecogNumInfo) (h : ∀ r ∈ R, ¬ specSelects r) :
    specStatus R = "No fruit detected" := by
  unfold specStatus
  have hf : R.find? (fun r => decide (specSelects r)) = none := by
    rw [List.find?_eq_none]
    intro r hr
    simpa using h r hr
  rw [hf]

/-! ## The claims on the interpretation step -/

/-- C1: for every list `R` of results handed to `FruitFreshnessFlag` (and to its
clone `CnnTrashClassifyFlag`) at the head of the buffer (`rest` is what the
buffer holds after them, `R.length` the count passed), with scores in the range
of a 32-bit word and a `buf` that holds the longest status, the status stored is
the formatted form of the first entry of `R` whose confidence `score / 4096`
has `confidence × 100 ≥ 30` and whose label index is in `[0, 9]`; an entry with
a label index outside `[0, 9]` is skipped whatever its score (the status is the
one of the list without it); with no such entry the status is
`"No fruit detected"`. -/
theorem FruitFreshnessFlag_first_match (R rest : List RecogNumInfo) (size : Nat)
    (hlen : R.length < 2 ^ 31) (hscore : ∀ r ∈ R, r.score < 2 ^ 32) (hsize : 29 ≤ size) :
    (FruitFreshnessFlag (R ++ rest) (R.length : Int) size).map (fun out => out.buf)
        = some (specStatus R) ∧
      (CnnTrashClassifyFlag (R ++ rest) (R.length : Int) size).map (fun out => out.buf)
        = some (specStatus R) ∧
      (∀ pre bad post, R = pre ++ bad :: post → ¬ (0 ≤ bad.num ∧ bad.num ≤ 9) →
        (FruitFreshnessFlag (R ++ rest) (R.length : Int) size).map (fun out => out.buf)
          = (FruitFreshnessFlag (pre ++ post ++ rest) ((pre ++ post).length : Int) size).map
              (fun out => out.buf)) ∧
      ((∀ r ∈ R, ¬ specSelects r) →
        (FruitFreshnessFlag (R ++ rest) (R.length : Int) size).map (fun out => out.buf)
          = some "No fruit detected") := by
  have hfit : ∀ R' : List RecogNumInfo, (∀ r ∈ R', r.score < 2 ^ 32) →
      snprintf_s size (specStatus R') = specStatus R' := by
    intro R' h'
    apply snprintf_s_fits
    have := specStatus_length R' h'
    omega
  have hmain : (FruitFreshnessFlag (R ++ rest) (R.length : Int) size).map (fun out => out.buf)
      = some (specStatus R) := by
    rw [FruitFreshnessFlag_buf R rest size hlen, hfit R hscore]
  refine ⟨hmain, ?_, ?_, ?_⟩
  · rw [CnnTrashClassifyFlag_eq]
    exact hmain
  · intro pre bad post hR hbad
    have hlen' : (pre ++ post).length < 2 ^ 31 := by
      rw [hR] at hlen
      simp only [List.length_append, List.length_cons] at hlen ⊢
      omega
    have hscore' : ∀ r ∈ pre ++ post, r.score < 2 ^ 32 := by
      intro r hr
      apply hscore
      rw [hR]
      simp only [List.mem_append, List.mem_cons] at hr ⊢
      tauto
    rw [hmain, FruitFreshnessFlag_buf (pre ++ post) rest size hlen', hfit _ hscore', hR,
      specStatus_skip pre post bad hbad]
  · intro hnone
    rw [hmain, specStatus_none R hnone]

/-- Witness for C1, at the empty list, at the list `[(5, 1000)]`, and at three
results in a buffer of four whose first two entries are passed over. -/
theorem FruitFreshnessFlag_first_match_witness :
    (FruitFreshnessFlag [] 0 256).map (fun out => out.buf) = some "No fruit detected" ∧
      (FruitFreshnessFlag [⟨5, 1000⟩] 1 256).map (fun out => out.buf)
        = some "No fruit detected" ∧
      (FruitFreshnessFlag [⟨5, 1000⟩, ⟨12, 4000⟩, ⟨6, 2048⟩, ⟨0, 3500⟩] 3 256).map
        (fun out => out.buf) = some (specStatus [⟨5, 1000⟩, ⟨12, 4000⟩, ⟨6, 2048⟩]) ∧
      (FruitFreshnessFlag [⟨5, 1000⟩, ⟨12, 4000⟩, ⟨6, 2048⟩, ⟨0, 3500⟩] 3 256).map
        (fun out => out.buf) = some "rotten banana 0.50" :=
  ⟨(FruitFreshnessFlag_first_match [] [] 256 (by decide) (by decide) (by decide)).2.2.2
      (by decide),
   by decide,
   (FruitFreshnessFlag_first_match [⟨5, 1000⟩, ⟨12, 4000⟩, ⟨6, 2048⟩] [⟨0, 3500⟩] 256
      (by decide) (by decide) (by decide)).1,
   by decide⟩

/-- C4: for the entry `r` the interpretation step selects among the results `R`
at the head of the buffer, with a score that single precision holds exactly
(below `2^24`; the scores of the inference are at most `4096`) and a `buf` that
holds the status, the status is the entry `r.num` of the label table, one
space, and the number of hundredths `h` nearest to `score / 4096` written as
integer part, point and two digits; the list `[(0, 3500)]` gives
`"fresh apple 0.85"`. -/
theorem FruitFreshnessFlag_format (R rest : List RecogNumInfo) (size : Nat)
    (r : RecogNumInfo) (hlen : R.length < 2 ^ 31) (hsize : 29 ≤ size)
    (hsel : R.find? (fun r => decide (specSelects r)) = some r)
    (hs : r.score < 2 ^ 24) :
    (∃ (label : String) (h : Nat), fruitTypes[r.num.toNat]? = some label ∧
      |(h : ℚ) / 100 - specConfidence r.score| ≤ 1 / 200 ∧
      (FruitFreshnessFlag (R ++ rest) (R.length : Int) size).map (fun out => out.buf) =
        some (label ++ " " ++ (Nat.repr (h / 100) ++ "." ++
          String.mk [Nat.digitChar (h % 100 / 10), Nat.digitChar (h % 10)]))) ∧
      (FruitFreshnessFlag [⟨0, 3500⟩] 1 size).map (fun out => out.buf)
        = some "fresh apple 0.85" := by
  have hspec : specSelects r := by simpa using List.find?_some hsel
  obtain ⟨label, hlabel, _⟩ := fruitTypes_getElem? r.num hspec.2.1 hspec.2.2
  constructor
  · refine ⟨label, divRoundHalfEven (r.score * 100) SCORE_MAX, hlabel, ?_, ?_⟩
    · obtain ⟨h1, h2⟩ := divRoundHalfEven_near (r.score * 100) SCORE_MAX (by decide)
      unfold SCORE_MAX at h1 h2 ⊢
      unfold specConfidence
      have h1' : ((2 * (r.score * 100) : Nat) : ℚ) ≤
          ((2 * (4096 * divRoundHalfEven (r.score * 100) 4096) + 4096 : Nat) : ℚ) := by
        exact_mod_cast h1
      have h2' : ((2 * (4096 * divRoundHalfEven (r.score * 100) 4096) : Nat) : ℚ) ≤
          ((2 * (r.score * 100) + 4096 : Nat) : ℚ) := by
        exact_mod_cast h2
      push_cast at h1' h2'
      rw [abs_le]
      constructor <;> linarith
    · have hst : specStatus R = formatEntry r := by
        unfold specStatus
        rw [hsel]
      have hfit : snprintf_s size (formatEntry r) = formatEntry r := by
        apply snprintf_s_fits
        have := formatEntry_length r hspec.2.1 hspec.2.2 (by omega)
        omega
      rw [FruitFreshnessFlag_buf R rest size hlen, hst, hfit]
      unfold formatEntry formatF2 confidence
      rw [hlabel, roundSig24_of_lt hs]
      rfl
  · have hloop : flagLoop [⟨0, 3500⟩] 1 1 =
        some { text := some "fresh apple 0.85", itemReads := [0], tableReads := [0] } := by
      decide
    have hfit : snprintf_s size "fresh apple 0.85" = "fresh apple 0.85" :=
      snprintf_s_fits size _ (by
        have : "fresh apple 0.85".length = 16 := by decide
        omega)
    have hb : ((1 : Int) % 4294967296).toNat = 1 := by decide
    unfold FruitFreshnessFlag
    simp only [hb, hloop, Option.map_some', Option.getD_some, hfit]

/-- Witness for C4, at two results in a buffer of four, the second of which is
the one selected; its confidence `0.375` is half way between two hundredths. -/
theorem FruitFreshnessFlag_format_witness :
    (∃ (label : String) (h : Nat), fruitTypes[(7 : Int).toNat]? = some label ∧
      |(h : ℚ) / 100 - specConfidence 1536| ≤ 1 / 200 ∧
      (FruitFreshnessFlag [⟨3, 1000⟩, ⟨7, 1536⟩, ⟨0, 0⟩, ⟨0, 0⟩] 2 256).map
        (fun out => out.buf) =
        some (label ++ " " ++ (Nat.repr (h / 100) ++ "." ++
          String.mk [Nat.digitChar (h % 100 / 10), Nat.digitChar (h % 10)]))) ∧
      (FruitFreshnessFlag [⟨0, 3500⟩] 1 256).map (fun out => out.buf)
        = some "fresh apple 0.85" :=
  FruitFreshnessFlag_format [⟨3, 1000⟩, ⟨7, 1536⟩] [⟨0, 0⟩, ⟨0, 0⟩] 256 ⟨7, 1536⟩
    (by decide) (by decide)
    (by
      have h1 : ¬ specSelects ⟨3, 1000⟩ := by
        rw [specSelects_iff]
        decide
      have h2 : specSelects ⟨7, 1536⟩ := by
        rw [specSelects_iff]
        decide
      simp [List.find?_cons, h1, h2])
    (by decide)

/-- C9: for every raw score `s` with `0 ≤ s ≤ 4096` the entry is skipped by the
test `confidence * 100 < THRESH_MIN` exactly when `s ≤ 1228`, and passes it
exactly when `100 * s ≥ 30 * 4096`, that is `s ≥ 1229`; the single-precision
values are exact on this range (`confidence` is `s / 4096` and its product
with `100` is `100 * s / 4096`, no rounding); `1228` is skipped and `1229` is
accepted. -/
theorem belowThreshold_exact (s : Nat) (hs : s ≤ 4096) :
    (belowThreshold s = true ↔ s ≤ 1228) ∧
      (belowThreshold s = false ↔ 30 * 4096 ≤ 100 * s) ∧
      (belowThreshold s = false ↔ 1229 ≤ s) ∧
      confidence s = s ∧ confidenceTimes100 s = s * 100 ∧
      belowThreshold 1228 = true ∧ belowThreshold 1229 = false := by
  have h1 : s < 2 ^ 24 := by omega
  have h2 : s * 100 < 2 ^ 24 := by omega
  have hc : confidence s = s := roundSig24_of_lt h1
  refine ⟨?_, belowThreshold_eq_false_iff s, ?_, hc, ?_, by decide, by decide⟩
  · rw [belowThreshold_iff]
    omega
  · rw [belowThreshold_eq_false_iff]
    omega
  · unfold confidenceTimes100
    rw [hc, roundSig24_of_lt h2]

/-- Witness for C9, at the score `3500`. -/
theorem belowThreshold_exact_witness :
    (3500 : Nat) ≤ 4096 ∧ belowThreshold 3500 = false ∧ confidenceTimes100 3500 = 350000 :=
  ⟨by decide, (belowThreshold_exact 3500 (by decide)).2.2.1.2 (by decide),
    (belowThreshold_exact 3500 (by decide)).2.2.2.2.1⟩

/-- C10: for a result buffer of 4 entries and a count `n` with `0 ≤ n ≤ 4` (what
the caller asserts after the inference), `FruitFreshnessFlag` returns, having
read the buffer at indices below `n` only and the label table at indices in
`[0, 9]` only, whatever the label indices and scores of the entries; the buffer
the caller passes has 4 entries. -/
theorem FruitFreshnessFlag_index_safe (items : List RecogNumInfo) (n : Int) (size : Nat)
    (hbuf : items.length = 4) (h0 : 0 ≤ n) (h4 : n ≤ 4) :
    (∃ out, FruitFreshnessFlag items n size = some out ∧
      (∀ i ∈ out.itemReads, (i : Int) < n ∧ i < items.length) ∧
      (∀ j ∈ out.tableReads, 0 ≤ j ∧ j ≤ 9 ∧ j.toNat < fruitTypes.length)) ∧
      (∀ env : CalEnv, (resBuf env).length = 4) := by
  refine ⟨?_, resBuf_length⟩
  obtain ⟨out, hout, _, hitems, htable, _⟩ :=
    FruitFreshnessFlag_safe items n size h0 (by omega) (by omega)
  refine ⟨out, hout, ?_, ?_⟩
  · intro i hi
    have := hitems i hi
    omega
  · intro j hj
    have := htable j hj
    have hl : fruitTypes.length = 10 := rfl
    omega

/-- Witness for C10, at a buffer whose entries carry label indices outside the
table. -/
theorem FruitFreshnessFlag_index_safe_witness :
    ∃ out, FruitFreshnessFlag [⟨12, 4000⟩, ⟨-1, 4096⟩, ⟨9, 2000⟩, ⟨77, 5⟩] 3 256 = some out ∧
      (∀ i ∈ out.itemReads,
        (i : Int) < 3 ∧ i < [(⟨12, 4000⟩ : RecogNumInfo), ⟨-1, 4096⟩, ⟨9, 2000⟩, ⟨77, 5⟩].length) ∧
      (∀ j ∈ out.tableReads, 0 ≤ j ∧ j ≤ 9 ∧ j.toNat < fruitTypes.length) :=
  (FruitFreshnessFlag_index_safe [⟨12, 4000⟩, ⟨-1, 4096⟩, ⟨9, 2000⟩, ⟨77, 5⟩] 3 256
    (by decide) (by decide) (by decide)).1

/-! ## Lemmas on the cycle -/

theorem skipsDetection_of_never (a b : Timeval) (h : a.tv_sec = 0) :
    skipsDetection a b = false := by
  unfold skipsDetection elapsedMicros
  simp [h]

theorem skipsDetection_iff (a b : Timeval) (h : a.tv_sec ≠ 0) :
    skipsDetection a b = true ↔ 0 < microsBetween a b ∧ microsBetween a b < 10000000 := by
  unfold skipsDetection elapsedMicros microsBetween DETECTION_INTERVAL_SEC
  simp [h]

theorem HiStrxfrm_snprintf_s (size : Nat) (s : String) :
    HiStrxfrm (snprintf_s size s) size = snprintf_s size s := by
  unfold HiStrxfrm snprintf_s
  simp [List.take_take]

theorem FruitFreshnessFlag_resBuf (N : Nat) (env : CalEnv) (h : env.resLenOk) :
    ∃ flag, FruitFreshnessFlag (resBuf env) env.resLen N = some flag ∧
      flag.ret = HI_SUCCESS ∧ flag.buf = statusOf N env ∧
      HiStrxfrm flag.buf N = flag.buf ∧ (2 ≤ N → flag.buf ≠ "") := by
  have hlen := resBuf_length env
  unfold CalEnv.resLenOk RET_NUM_MAX at h
  obtain ⟨flag, hflag, hret, _, _, text, htext, hbuf⟩ :=
    FruitFreshnessFlag_safe (resBuf env) env.resLen N h.1 (by omega) (by omega)
  refine ⟨flag, hflag, hret, ?_, ?_, ?_⟩
  · unfold statusOf
    rw [hflag]
    rfl
  · rw [hbuf]
    exact HiStrxfrm_snprintf_s _ _
  · intro hN hempty
    rw [hbuf] at hempty
    unfold snprintf_s at hempty
    have hd : (String.mk (List.take (N - 1) text.data)).data = [] := by
      rw [hempty]
    simp only [List.take_eq_nil_iff] at hd
    rcases hd with hd | hd
    · omega
    · exact htext hd

theorem FruitFreshnessCal_skip (N : Nat) (st : FruitState) (env : CalEnv)
    (h : skipsDetection st.lastDetectTime env.currentTime = true) :
    FruitFreshnessCal N st env = some { ret := HI_SUCCESS, st := st, calls := [] } := by
  unfold FruitFreshnessCal
  rw [if_pos h]

theorem FruitFreshnessCal_fail (N : Nat) (st : FruitState) (env : CalEnv)
    (h : skipsDetection st.lastDetectTime env.currentTime = false) :
    (env.resizeRet ≠ HI_SUCCESS →
      FruitFreshnessCal N st env = some
        { ret := env.resizeRet, st := { st with lastDetectTime := env.currentTime },
          calls := [Call.MppFrmResize] }) ∧
    (env.resizeRet = HI_SUCCESS → env.frmToOrigImgRet ≠ HI_SUCCESS →
      FruitFreshnessCal N st env = some
        { ret := env.frmToOrigImgRet, st := { st with lastDetectTime := env.currentTime },
          calls := [Call.MppFrmResize, Call.FrmToOrigImg] }) ∧
    (env.resizeRet = HI_SUCCESS → env.frmToOrigImgRet = HI_SUCCESS → env.cropRet < 0 →
      FruitFreshnessCal N st env = some
        { ret := env.cropRet, st := { st with lastDetectTime := env.currentTime },
          calls := [Call.MppFrmResize, Call.FrmToOrigImg, Call.ImgYuvCrop] }) ∧
    (env.resizeRet = HI_SUCCESS → env.frmToOrigImgRet = HI_SUCCESS → 0 ≤ env.cropRet →
      env.cnnRet < 0 →
      FruitFreshnessCal N st env = some
        { ret := env.cnnRet, st := { st with lastDetectTime := env.currentTime },
          calls := [Call.MppFrmResize, Call.FrmToOrigImg, Call.ImgYuvCrop,
                    Call.CnnCalImg] }) := by
  unfold FruitFreshnessCal SAMPLE_CHECK_EXPR_RET
  simp only [h, Bool.false_eq_true, if_false]
  refine ⟨?_, ?_, ?_, ?_⟩
  · intro h1
    simp [h1]
  · intro h1 h2
    simp [h1, h2]
  · intro h1 h2 h3
    simp [h1, h2, h3]
  · intro h1 h2 h3 h4
    simp [h1, h2, h3, h4]

theorem FruitFreshnessCal_publish (N : Nat) (st : FruitState) (env : CalEnv)
    (h : skipsDetection st.lastDetectTime env.currentTime = false)
    (hreach : env.reachesPublish) :
    (statusOf N env ≠ st.prevOsd →
      FruitFreshnessCal N st env = some
        { ret := env.sendFrameRet,
          st := { lastDetectTime := env.currentTime, prevOsd := statusOf N env },
          calls := [Call.MppFrmResize, Call.FrmToOrigImg, Call.ImgYuvCrop, Call.CnnCalImg,
                    Call.OsdsSetRgn (statusOf N env) 20 20, Call.HI_MPI_VPSS_SendFrame,
                    Call.IveImgDestroy, Call.MppFrmDestroy] }) ∧
    (statusOf N env = st.prevOsd →
      FruitFreshnessCal N st env = some
        { ret := HI_SUCCESS,
          st := { lastDetectTime := env.currentTime, prevOsd := st.prevOsd },
          calls := [Call.MppFrmResize, Call.FrmToOrigImg, Call.ImgYuvCrop, Call.CnnCalImg,
                    Call.IveImgDestroy, Call.MppFrmDestroy] }) := by
  obtain ⟨h1, h2, h3, h4, h5⟩ := hreach
  obtain ⟨flag, hflag, hret, hbuf, hcopy, _⟩ := FruitFreshnessFlag_resBuf N env h5
  have h3' : ¬ env.cropRet < 0 := by omega
  have h4' : ¬ env.cnnRet < 0 := by omega
  have h5' : 0 ≤ env.resLen ∧ env.resLen ≤ (RET_NUM_MAX : Int) := h5
  have hret' : ¬ flag.ret < 0 := by
    rw [hret]
    decide
  unfold FruitFreshnessCal SAMPLE_CHECK_EXPR_RET HI_ASSERT
  simp only [h, Bool.false_eq_true, if_false, h1, h2, h3', h4', h5', hflag, hret',
    ne_eq, not_true_eq_false, decide_False, decide_True, if_true, and_self]
  rw [hcopy, hbuf, hret]
  constructor
  · intro hne
    rw [if_pos hne]
  · intro heq
    rw [if_neg (not_not.mpr heq)]

theorem CnnTrashClassifyCal_skip (N : Nat) (st : TrashState) (env : CalEnv)
    (h : skipsDetection st.lastDetectTime env.currentTime = true) :
    CnnTrashClassifyCal N st env = some { ret := HI_SUCCESS, st := st, calls := [] } := by
  unfold CnnTrashClassifyCal
  rw [if_pos h]

theorem CnnTrashClassifyCal_fail (N : Nat) (st : TrashState) (env : CalEnv)
    (h : skipsDetection st.lastDetectTime env.currentTime = false) :
    (env.resizeRet ≠ HI_SUCCESS →
      CnnTrashClassifyCal N st env = some
        { ret := env.resizeRet, st := { lastDetectTime := env.currentTime },
          calls := [Call.MppFrmResize] }) ∧
    (env.resizeRet = HI_SUCCESS → env.frmToOrigImgRet ≠ HI_SUCCESS →
      CnnTrashClassifyCal N st env = some
        { ret := env.frmToOrigImgRet, st := { lastDetectTime := env.currentTime },
          calls := [Call.MppFrmResize, Call.FrmToOrigImg] }) ∧
    (env.resizeRet = HI_SUCCESS → env.frmToOrigImgRet = HI_SUCCESS → env.cropRet < 0 →
      CnnTrashClassifyCal N st env = some
        { ret := env.cropRet, st := { lastDetectTime := env.currentTime },
          calls := [Call.MppFrmResize, Call.FrmToOrigImg, Call.ImgYuvCrop] }) ∧
    (env.resizeRet = HI_SUCCESS → env.frmToOrigImgRet = HI_SUCCESS → 0 ≤ env.cropRet →
      env.cnnRet < 0 →
      CnnTrashClassifyCal N st env = some
        { ret := env.cnnRet, st := { lastDetectTime := env.currentTime },
          calls := [Call.MppFrmResize, Call.FrmToOrigImg, Call.ImgYuvCrop,
                    Call.CnnCalImg] }) := by
  unfold CnnTrashClassifyCal SAMPLE_CHECK_EXPR_RET
  simp only [h, Bool.false_eq_true, if_false]
  refine ⟨?_, ?_, ?_, ?_⟩
  · intro h1
    simp [h1]
  · intro h1 h2
    simp [h1, h2]
  · intro h1 h2 h3
    simp [h1, h2, h3]
  · intro h1 h2 h3 h4
    simp [h1, h2, h3, h4]

theorem CnnTrashClassifyCal_complete (N : Nat) (st : TrashState) (env : CalEnv)
    (h : skipsDetection st.lastDetectTime env.currentTime = false)
    (hreach : env.reachesPublish) :
    CnnTrashClassifyCal N st env = some
      { ret := HI_SUCCESS, st := { lastDetectTime := env.currentTime },
        calls := [Call.MppFrmResize, Call.FrmToOrigImg, Call.ImgYuvCrop, Call.CnnCalImg,
                  Call.IveImgDestroy, Call.MppFrmDestroy] } := by
  obtain ⟨h1, h2, h3, h4, h5⟩ := hreach
  obtain ⟨flag, hflag, hret, _, _, _⟩ := FruitFreshnessFlag_resBuf N env h5
  have h3' : ¬ env.cropRet < 0 := by omega
  have h4' : ¬ env.cnnRet < 0 := by omega
  have h5' : 0 ≤ env.resLen ∧ env.resLen ≤ (RET_NUM_MAX : Int) := h5
  have hret' : ¬ flag.ret < 0 := by
    rw [hret]
    decide
  unfold CnnTrashClassifyCal SAMPLE_CHECK_EXPR_RET HI_ASSERT
  rw [CnnTrashClassifyFlag_eq]
  simp only [h, Bool.false_eq_true, if_false, h1, h2, h3', h4', h5', hflag, hret',
    ne_eq, not_true_eq_false, decide_False, decide_True, if_true, and_self]
  rw [hret]

theorem reachesPublish_or_fails (env : CalEnv) (h : env.resLenOk) :
    env.reachesPublish ∨ env.resizeRet ≠ HI_SUCCESS ∨
      (env.resizeRet = HI_SUCCESS ∧ env.frmToOrigImgRet ≠ HI_SUCCESS) ∨
      (env.resizeRet = HI_SUCCESS ∧ env.frmToOrigImgRet = HI_SUCCESS ∧ env.cropRet < 0) ∨
      (env.resizeRet = HI_SUCCESS ∧ env.frmToOrigImgRet = HI_SUCCESS ∧ 0 ≤ env.cropRet ∧
        env.cnnRet < 0) := by
  unfold CalEnv.reachesPublish
  by_cases h1 : env.resizeRet = HI_SUCCESS
  · by_cases h2 : env.frmToOrigImgRet = HI_SUCCESS
    · by_cases h3 : env.cropRet < 0
      · exact Or.inr (Or.inr (Or.inr (Or.inl ⟨h1, h2, h3⟩)))
      · by_cases h4 : env.cnnRet < 0
        · exact Or.inr (Or.inr (Or.inr (Or.inr ⟨h1, h2, by omega, h4⟩)))
        · exact Or.inl ⟨h1, h2, by omega, by omega, h⟩
    · exact Or.inr (Or.inr (Or.inl ⟨h1, h2⟩))
  · exact Or.inr (Or.inl h1)

theorem FruitFreshnessCal_gated (N : Nat) :
    GatedCycle (FruitFreshnessCal N) (fun st => st.lastDetectTime) where
  skip := FruitFreshnessCal_skip N
  run := by
    intro st env hg hlen
    obtain ⟨f1, f2, f3, f4⟩ := FruitFreshnessCal_fail N st env hg
    rcases reachesPublish_or_fails env hlen with h | h | h | h | h
    · obtain ⟨p1, p2⟩ := FruitFreshnessCal_publish N st env hg h
      by_cases hs : statusOf N env = st.prevOsd
      · exact ⟨_, p2 hs, rfl, rfl⟩
      · exact ⟨_, p1 hs, rfl, rfl⟩
    · exact ⟨_, f1 h, rfl, rfl⟩
    · exact ⟨_, f2 h.1 h.2, rfl, rfl⟩
    · exact ⟨_, f3 h.1 h.2.1 h.2.2, rfl, rfl⟩
    · exact ⟨_, f4 h.1 h.2.1 h.2.2.1 h.2.2.2, rfl, rfl⟩

theorem CnnTrashClassifyCal_gated (N : Nat) :
    GatedCycle (CnnTrashClassifyCal N) (fun st => st.lastDetectTime) where
  skip := CnnTrashClassifyCal_skip N
  run := by
    intro st env hg hlen
    obtain ⟨f1, f2, f3, f4⟩ := CnnTrashClassifyCal_fail N st env hg
    rcases reachesPublish_or_fails env hlen with h | h | h | h | h
    · exact ⟨_, CnnTrashClassifyCal_complete N st env hg h, rfl, rfl⟩
    · exact ⟨_, f1 h, rfl, rfl⟩
    · exact ⟨_, f2 h.1 h.2, rfl, rfl⟩
    · exact ⟨_, f3 h.1 h.2.1 h.2.2, rfl, rfl⟩
    · exact ⟨_, f4 h.1 h.2.1 h.2.2.1 h.2.2.2, rfl, rfl⟩

/-- The throttle of a gated cycle along a sequence of calls with strictly
increasing times, the seconds of which are not zero. -/
theorem GatedCycle.run_throttle {σ : Type} {cal : σ → CalEnv → Option (CalOut σ)}
    {last : σ → Timeval} (hc : GatedCycle cal last) :
    ∀ (envs : List CalEnv) (st : σ) (lastWork : Option Timeval),
      (match lastWork with
        | none => (last st).tv_sec = 0
        | some l => last st = l ∧ l.tv_sec ≠ 0) →
      (∀ env ∈ envs, env.resLenOk) →
      (∀ env ∈ envs, env.currentTime.tv_sec ≠ 0) →
      List.Pairwise (fun a b => 0 < microsBetween a b)
        (envs.map (fun env => env.currentTime)) →
      (∀ l, lastWork = some l → ∀ env ∈ envs, 0 < microsBetween l env.currentTime) →
      ∃ outs, runCycles cal st envs = some outs ∧
        outs.map (fun out => out.realWork)
          = specRealWork lastWork (envs.map (fun env => env.currentTime)) ∧
        (∀ out ∈ outs, out.realWork = false → out.ret = HI_SUCCESS ∧ out.calls = []) := by
  intro envs
  induction envs with
  | nil =>
    intro st lastWork _ _ _ _ _
    exact ⟨[], rfl, rfl, by simp⟩
  | cons env envs ih =>
    intro st lastWork hrel hwf hsec hinc hafter
    have hwf' : ∀ e ∈ envs, e.resLenOk := fun e he => hwf e (List.mem_cons_of_mem _ he)
    have hsec' : ∀ e ∈ envs, e.currentTime.tv_sec ≠ 0 :=
      fun e he => hsec e (List.mem_cons_of_mem _ he)
    rw [List.map_cons, List.pairwise_cons] at hinc
    obtain ⟨hhead, hinc'⟩ := hinc
    have hnext : ∀ e ∈ envs, 0 < microsBetween env.currentTime e.currentTime := by
      intro e he
      exact hhead e.currentTime (List.mem_map_of_mem _ he)
    -- the case where the call performs real work
    have hwork : skipsDetection (last st) env.currentTime = false →
        ∃ outs, runCycles cal st (env :: envs) = some outs ∧
          outs.map (fun out => out.realWork)
            = true :: specRealWork (some env.currentTime)
                (envs.map (fun env => env.currentTime)) ∧
          (∀ out ∈ outs, out.realWork = false → out.ret = HI_SUCCESS ∧ out.calls = []) := by
      intro hg
      obtain ⟨out, hout, hlast, hreal⟩ := hc.run st env hg (hwf env (List.mem_cons_self _ _))
      obtain ⟨outs, houts, hmap, hnoop⟩ := ih out.st (some env.currentTime)
        ⟨hlast, hsec env (List.mem_cons_self _ _)⟩ hwf' hsec' hinc'
        (by
          intro l hl e he
          simp only [Option.some.injEq] at hl
          rw [← hl]
          exact hnext e he)
      refine ⟨out :: outs, ?_, ?_, ?_⟩
      · simp only [runCycles, hout, houts, Option.map_some']
      · simp only [List.map_cons, hreal, hmap]
      · intro o ho
        rcases List.mem_cons.1 ho with h | h
        · intro hf
          rw [h, hreal] at hf
          exact absurd hf (by decide)
        · exact hnoop o h
    cases lastWork with
    | none =>
      have hg : skipsDetection (last st) env.currentTime = false :=
        skipsDetection_of_never _ _ hrel
      obtain ⟨outs, houts, hmap, hnoop⟩ := hwork hg
      exact ⟨outs, houts, by simpa [specRealWork] using hmap, hnoop⟩
    | some l =>
      obtain ⟨hl, hl0⟩ := hrel
      have hpos : 0 < microsBetween l env.currentTime :=
        hafter l rfl env (List.mem_cons_self _ _)
      by_cases hd : (DETECTION_INTERVAL_SEC : Int) * 1000000 ≤ microsBetween l env.currentTime
      · have hg : skipsDetection (last st) env.currentTime = false := by
          rw [← Bool.not_eq_true, hl, skipsDetection_iff _ _ hl0]
          unfold DETECTION_INTERVAL_SEC at hd
          omega
        obtain ⟨outs, houts, hmap, hnoop⟩ := hwork hg
        exact ⟨outs, houts, by simpa [specRealWork, hd] using hmap, hnoop⟩
      · have hg : skipsDetection (last st) env.currentTime = true := by
          rw [hl, skipsDetection_iff _ _ hl0]
          unfold DETECTION_INTERVAL_SEC at hd
          omega
        have hout := hc.skip st env hg
        obtain ⟨outs, houts, hmap, hnoop⟩ := ih st (some l) ⟨hl, hl0⟩ hwf' hsec' hinc'
          (by
            intro l' hl' e he
            exact hafter l' hl' e (List.mem_cons_of_mem _ he))
        refine ⟨{ ret := HI_SUCCESS, st := st, calls := [] } :: outs, ?_, ?_, ?_⟩
        · simp only [runCycles, hout, houts, Option.map_some']
        · have hr : ({ ret := HI_SUCCESS, st := st, calls := [] } : CalOut σ).realWork
              = false := rfl
          simp only [List.map_cons, hr, hmap, specRealWork]
          simp [hd]
        · intro o ho
          rcases List.mem_cons.1 ho with h | h
          · intro _
            rw [h]
            exact ⟨rfl, rfl⟩
          · exact hnoop o h

theorem microsBetween_add (a b c : Timeval) :
    microsBetween a c = microsBetween a b + microsBetween b c := by
  unfold microsBetween
  omega

/-- The spacing of the executed calls of a gated cycle along a sequence of
calls whose times never decrease and have seconds that are not zero. -/
theorem GatedCycle.run_spacing {σ : Type} {cal : σ → CalEnv → Option (CalOut σ)}
    {last : σ → Timeval} (hc : GatedCycle cal last) :
    ∀ (envs : List CalEnv) (st : σ),
      ((last st).tv_sec ≠ 0 → ∀ env ∈ envs, 0 ≤ microsBetween (last st) env.currentTime) →
      (∀ env ∈ envs, env.resLenOk) →
      (∀ env ∈ envs, env.currentTime.tv_sec ≠ 0) →
      List.Pairwise (fun a b => 0 ≤ microsBetween a b)
        (envs.map (fun env => env.currentTime)) →
      ∃ outs, runCycles cal st envs = some outs ∧
        List.Pairwise Spaced (executedTimes envs outs) ∧
        ((last st).tv_sec ≠ 0 → ∀ t ∈ executedTimes envs outs, Spaced (last st) t) := by
  intro envs
  induction envs with
  | nil =>
    intro st _ _ _ _
    refine ⟨[], rfl, ?_, ?_⟩
    · simp [executedTimes]
    · simp [executedTimes]
  | cons env envs ih =>
    intro st hafter hwf hsec hmono
    have hwf' : ∀ e ∈ envs, e.resLenOk := fun e he => hwf e (List.mem_cons_of_mem _ he)
    have hsec' : ∀ e ∈ envs, e.currentTime.tv_sec ≠ 0 :=
      fun e he => hsec e (List.mem_cons_of_mem _ he)
    have henv0 : env.currentTime.tv_sec ≠ 0 := hsec env (List.mem_cons_self _ _)
    rw [List.map_cons, List.pairwise_cons] at hmono
    obtain ⟨hhead, hmono'⟩ := hmono
    have hnext : ∀ e ∈ envs, 0 ≤ microsBetween env.currentTime e.currentTime := by
      intro e he
      exact hhead e.currentTime (List.mem_map_of_mem _ he)
    by_cases hg : skipsDetection (last st) env.currentTime = true
    · have hout := hc.skip st env hg
      obtain ⟨outs, houts, hpair, hlast⟩ := ih st
        (fun h0 e he => hafter h0 e (List.mem_cons_of_mem _ he)) hwf' hsec' hmono'
      refine ⟨{ ret := HI_SUCCESS, st := st, calls := [] } :: outs, ?_, ?_, ?_⟩
      · simp only [runCycles, hout, houts, Option.map_some']
      · simpa [executedTimes, CalOut.realWork] using hpair
      · simpa [executedTimes, CalOut.realWork] using hlast
    · have hg' : skipsDetection (last st) env.currentTime = false := by simpa using hg
      obtain ⟨out, hout, hl, hreal⟩ := hc.run st env hg' (hwf env (List.mem_cons_self _ _))
      obtain ⟨outs, houts, hpair, hlast⟩ := ih out.st
        (by
          intro _ e he
          rw [hl]
          exact hnext e he) hwf' hsec' hmono'
      have hlast' : ∀ t ∈ executedTimes envs outs, Spaced env.currentTime t := by
        intro t ht
        have := hlast (by rw [hl]; exact henv0) t ht
        rwa [hl] at this
      have hexec : executedTimes (env :: envs) (out :: outs)
          = env.currentTime :: executedTimes envs outs := by
        simp [executedTimes, hreal]
      refine ⟨out :: outs, ?_, ?_, ?_⟩
      · simp only [runCycles, hout, houts, Option.map_some']
      · rw [hexec, List.pairwise_cons]
        exact ⟨hlast', hpair⟩
      · intro h0 t ht
        rw [hexec] at ht
        have hge : 0 ≤ microsBetween (last st) env.currentTime :=
          hafter h0 env (List.mem_cons_self _ _)
        have hfirst : Spaced (last st) env.currentTime := by
          have hns := hg
          rw [skipsDetection_iff _ _ h0] at hns
          unfold Spaced DETECTION_INTERVAL_SEC
          omega
        rcases List.mem_cons.1 ht with h | h
        · rw [h]
          exact hfirst
        · have hsp := hlast' t h
          have hadd := microsBetween_add (last st) env.currentTime t
          unfold Spaced DETECTION_INTERVAL_SEC at hfirst hsp ⊢
          omega

theorem FruitFreshnessCal_last (N : Nat) (st : FruitState) (env : CalEnv)
    (h : skipsDetection st.lastDetectTime env.currentTime = false) (out : CalOut FruitState)
    (hout : FruitFreshnessCal N st env = some out) :
    out.st.lastDetectTime = env.currentTime := by
  unfold FruitFreshnessCal SAMPLE_CHECK_EXPR_RET HI_ASSERT at hout
  simp only [h, Bool.false_eq_true, if_false] at hout
  repeat' split at hout
  all_goals first
    | (simp only [Option.some.injEq] at hout; rw [← hout])
    | (simp at hout)

theorem CnnTrashClassifyCal_last (N : Nat) (st : TrashState) (env : CalEnv)
    (h : skipsDetection st.lastDetectTime env.currentTime = false) (out : CalOut TrashState)
    (hout : CnnTrashClassifyCal N st env = some out) :
    out.st.lastDetectTime = env.currentTime := by
  unfold CnnTrashClassifyCal SAMPLE_CHECK_EXPR_RET HI_ASSERT at hout
  simp only [h, Bool.false_eq_true, if_false] at hout
  repeat' split at hout
  all_goals first
    | (simp only [Option.some.injEq] at hout; rw [← hout])
    | (simp at hout)

theorem FruitFreshnessCal_returns (N : Nat) (st : FruitState) (env : CalEnv)
    (hg : skipsDetection st.lastDetectTime env.currentTime = false)
    (h : env.resLenOk ∨ env.resizeRet ≠ HI_SUCCESS ∨ env.frmToOrigImgRet ≠ HI_SUCCESS ∨
      env.cropRet < 0 ∨ env.cnnRet < 0) :
    ∃ out, FruitFreshnessCal N st env = some out := by
  obtain ⟨f1, f2, f3, f4⟩ := FruitFreshnessCal_fail N st env hg
  by_cases h1 : env.resizeRet = HI_SUCCESS
  · by_cases h2 : env.frmToOrigImgRet = HI_SUCCESS
    · by_cases h3 : env.cropRet < 0
      · exact ⟨_, f3 h1 h2 h3⟩
      · by_cases h4 : env.cnnRet < 0
        · exact ⟨_, f4 h1 h2 (by omega) h4⟩
        · have hlen : env.resLenOk := by tauto
          exact ((FruitFreshnessCal_gated N).run st env hg hlen).imp (fun _ h => h.1)
    · exact ⟨_, f2 h1 h2⟩
  · exact ⟨_, f1 h1⟩

theorem CnnTrashClassifyCal_returns (N : Nat) (st : TrashState) (env : CalEnv)
    (hg : skipsDetection st.lastDetectTime env.currentTime = false)
    (h : env.resLenOk ∨ env.resizeRet ≠ HI_SUCCESS ∨ env.frmToOrigImgRet ≠ HI_SUCCESS ∨
      env.cropRet < 0 ∨ env.cnnRet < 0) :
    ∃ out, CnnTrashClassifyCal N st env = some out := by
  obtain ⟨f1, f2, f3, f4⟩ := CnnTrashClassifyCal_fail N st env hg
  by_cases h1 : env.resizeRet = HI_SUCCESS
  · by_cases h2 : env.frmToOrigImgRet = HI_SUCCESS
    · by_cases h3 : env.cropRet < 0
      · exact ⟨_, f3 h1 h2 h3⟩
      · by_cases h4 : env.cnnRet < 0
        · exact ⟨_, f4 h1 h2 (by omega) h4⟩
        · have hlen : env.resLenOk := by tauto
          exact ((CnnTrashClassifyCal_gated N).run st env hg hlen).imp (fun _ h => h.1)
    · exact ⟨_, f2 h1 h2⟩
  · exact ⟨_, f1 h1⟩

theorem skipsDetection_of_between (a b : Timeval) (h0 : a.tv_sec ≠ 0)
    (h1 : 0 < microsBetween a b) (h2 : microsBetween a b < 10000000) :
    skipsDetection a b = true :=
  (skipsDetection_iff a b h0).2 ⟨h1, h2⟩

/-! ## The claims on the time gate -/

/-- C2, as the code has it: for every sequence of calls of the cycle
(`FruitFreshnessCal`, `CnnTrashClassifyCal`) on one instance, from the initial
static variables, with strictly increasing times the seconds field of which is
not zero (the code reads a stored seconds field of zero as "never run"), and an
inference that honours the length it is given, every call returns, and a call
performs real work exactly when no earlier call did or at least 10 seconds have
passed since the last call that did; every other call returns `HI_SUCCESS`
without calling any collaborator. -/
theorem cycle_throttle (N : Nat) (envs : List CalEnv)
    (hwf : ∀ env ∈ envs, env.resLenOk)
    (hsec : ∀ env ∈ envs, env.currentTime.tv_sec ≠ 0)
    (hinc : List.Pairwise (fun a b => 0 < microsBetween a b)
      (envs.map (fun env => env.currentTime))) :
    (∃ outs, runCycles (FruitFreshnessCal N) FruitState.init envs = some outs ∧
      outs.map (fun out => out.realWork)
        = specRealWork none (envs.map (fun env => env.currentTime)) ∧
      (∀ out ∈ outs, out.realWork = false → out.ret = HI_SUCCESS ∧ out.calls = [])) ∧
    (∃ outs, runCycles (CnnTrashClassifyCal N) TrashState.init envs = some outs ∧
      outs.map (fun out => out.realWork)
        = specRealWork none (envs.map (fun env => env.currentTime)) ∧
      (∀ out ∈ outs, out.realWork = false → out.ret = HI_SUCCESS ∧ out.calls = [])) :=
  ⟨(FruitFreshnessCal_gated N).run_throttle envs FruitState.init none rfl hwf hsec hinc
      (fun _ h => by simp at h),
   (CnnTrashClassifyCal_gated N).run_throttle envs TrashState.init none rfl hwf hsec hinc
      (fun _ h => by simp at h)⟩

/-- Witness for C2 as the code has it: calls at 100 s, 105 s and 111 s; the
first and the third perform real work. -/
theorem cycle_throttle_witness :
    (∃ outs, runCycles (FruitFreshnessCal 256) FruitState.init
        [envAt 100 0, envAt 105 0, envAt 111 0] = some outs ∧
      outs.map (fun out => out.realWork) = [true, false, true] ∧
      (∀ out ∈ outs, out.realWork = false → out.ret = HI_SUCCESS ∧ out.calls = [])) ∧
    (∃ outs, runCycles (CnnTrashClassifyCal 256) TrashState.init
        [envAt 100 0, envAt 105 0, envAt 111 0] = some outs ∧
      outs.map (fun out => out.realWork) = [true, false, true] ∧
      (∀ out ∈ outs, out.realWork = false → out.ret = HI_SUCCESS ∧ out.calls = [])) :=
  cycle_throttle 256 [envAt 100 0, envAt 105 0, envAt 111 0] (by decide) (by decide)
    (by decide)

/-- C2 as stated fails at the times 0 s, 5 s, 11 s of its own scenario: the
call at 0 s stores a seconds field of zero, which the gate reads as "never
run", so the call at 5 s performs real work and the call at 11 s, 6 seconds
later, is the one skipped; the claim has real work, no-op, real work. -/
theorem cycle_throttle_counterexample :
    (runCycles (FruitFreshnessCal 256) FruitState.init
        [envAt 0 0, envAt 5 0, envAt 11 0]).map
        (fun outs => outs.map (fun out => out.realWork)) = some [true, true, false] ∧
      (runCycles (CnnTrashClassifyCal 256) TrashState.init
        [envAt 0 0, envAt 5 0, envAt 11 0]).map
        (fun outs => outs.map (fun out => out.realWork)) = some [true, true, false] ∧
      specRealWork none [⟨0, 0⟩, ⟨5, 0⟩, ⟨11, 0⟩] = [true, false, true] := by
  decide

/-- C7, as the code has it: when a call at time `t` gets past the time gate,
whatever the collaborators return afterwards, a call that returns has stored
`t` in `lastDetectTime` (and the call does return when a step before the
interpretation fails or the inference honours the length it is given); when
the seconds field of `t` is not zero, a following call at `t'` with
`0 < t' - t < 10 s` returns `HI_SUCCESS` with the static variables unchanged and
no collaborator called. -/
theorem cycle_clock_set_first (N : Nat) (stF : FruitState) (stT : TrashState) (env : CalEnv)
    (hgF : skipsDetection stF.lastDetectTime env.currentTime = false)
    (hgT : skipsDetection stT.lastDetectTime env.currentTime = false) :
    (∀ out, FruitFreshnessCal N stF env = some out →
      out.st.lastDetectTime = env.currentTime ∧
      (env.currentTime.tv_sec ≠ 0 → ∀ env' : CalEnv,
        0 < microsBetween env.currentTime env'.currentTime →
        microsBetween env.currentTime env'.currentTime < 10000000 →
        FruitFreshnessCal N out.st env'
          = some { ret := HI_SUCCESS, st := out.st, calls := [] })) ∧
    (∀ out, CnnTrashClassifyCal N stT env = some out →
      out.st.lastDetectTime = env.currentTime ∧
      (env.currentTime.tv_sec ≠ 0 → ∀ env' : CalEnv,
        0 < microsBetween env.currentTime env'.currentTime →
        microsBetween env.currentTime env'.currentTime < 10000000 →
        CnnTrashClassifyCal N out.st env'
          = some { ret := HI_SUCCESS, st := out.st, calls := [] })) ∧
    ((env.resLenOk ∨ env.resizeRet ≠ HI_SUCCESS ∨ env.frmToOrigImgRet ≠ HI_SUCCESS ∨
        env.cropRet < 0 ∨ env.cnnRet < 0) →
      (∃ out, FruitFreshnessCal N stF env = some out) ∧
      (∃ out, CnnTrashClassifyCal N stT env = some out)) := by
  refine ⟨?_, ?_, ?_⟩
  · intro out hout
    have hl := FruitFreshnessCal_last N stF env hgF out hout
    refine ⟨hl, ?_⟩
    intro h0 env' h1 h2
    apply FruitFreshnessCal_skip
    rw [hl]
    exact skipsDetection_of_between _ _ h0 h1 h2
  · intro out hout
    have hl := CnnTrashClassifyCal_last N stT env hgT out hout
    refine ⟨hl, ?_⟩
    intro h0 env' h1 h2
    apply CnnTrashClassifyCal_skip
    rw [hl]
    exact skipsDetection_of_between _ _ h0 h1 h2
  · intro h
    exact ⟨FruitFreshnessCal_returns N stF env hgF h,
      CnnTrashClassifyCal_returns N stT env hgT h⟩

/-- Witness for C7 as the code has it: the run at 100 s fails at the resize,
the time is stored all the same, and the call at 105 s is a no-op. -/
theorem cycle_clock_set_first_witness :
    FruitFreshnessCal 256 FruitState.init { envAt 100 0 with resizeRet := -1 }
      = some { ret := -1, st := { lastDetectTime := ⟨100, 0⟩, prevOsd := "" },
               calls := [Call.MppFrmResize] } ∧
    FruitFreshnessCal 256 { lastDetectTime := ⟨100, 0⟩, prevOsd := "" } (envAt 105 0)
      = some { ret := HI_SUCCESS, st := { lastDetectTime := ⟨100, 0⟩, prevOsd := "" },
               calls := [] } :=
  ⟨by decide,
   ((cycle_clock_set_first 256 FruitState.init TrashState.init
      { envAt 100 0 with resizeRet := -1 } (by decide) (by decide)).1
      { ret := -1, st := { lastDetectTime := ⟨100, 0⟩, prevOsd := "" },
        calls := [Call.MppFrmResize] } (by decide)).2 (by decide) (envAt 105 0)
      (by decide) (by decide)⟩

/-- C7 as stated fails when the seconds field of `t` is zero: the run at
`t = 0.5 s` fails at the resize and stores `t`; the call at `t' = 5 s`, 4.5
seconds later, is not a no-op: it gets past the gate and calls the resize. -/
theorem cycle_clock_set_first_counterexample :
    FruitFreshnessCal 256 FruitState.init { envAt 0 500000 with resizeRet := -1 }
      = some { ret := -1, st := { lastDetectTime := ⟨0, 500000⟩, prevOsd := "" },
               calls := [Call.MppFrmResize] } ∧
    microsBetween ⟨0, 500000⟩ (envAt 5 0).currentTime = 4500000 ∧
    (FruitFreshnessCal 256 { lastDetectTime := ⟨0, 500000⟩, prevOsd := "" } (envAt 5 0)).map
      (fun out => out.calls.take 1) = some [Call.MppFrmResize] := by
  decide

/-- C8, as the code has it: for every sequence of calls of the cycle on one and
the same instance, from the initial static variables, whose times never
decrease and have a seconds field that is not zero (and an inference that
honours the length it is given), every call returns and any two executed cycles
are at the same time or at least 10 seconds apart; and every call made when an
earlier run is stored (seconds field not zero) and the elapsed time is above
zero and below 10 seconds returns `HI_SUCCESS` with no collaborator called. -/
theorem cycle_min_spacing (N : Nat) (envs : List CalEnv)
    (hwf : ∀ env ∈ envs, env.resLenOk)
    (hsec : ∀ env ∈ envs, env.currentTime.tv_sec ≠ 0)
    (hmono : List.Pairwise (fun a b => 0 ≤ microsBetween a b)
      (envs.map (fun env => env.currentTime))) :
    (∃ outs, runCycles (FruitFreshnessCal N) FruitState.init envs = some outs ∧
      List.Pairwise Spaced (executedTimes envs outs)) ∧
    (∃ outs, runCycles (CnnTrashClassifyCal N) TrashState.init envs = some outs ∧
      List.Pairwise Spaced (executedTimes envs outs)) ∧
    (∀ (st : FruitState) (env : CalEnv), st.lastDetectTime.tv_sec ≠ 0 →
      0 < microsBetween st.lastDetectTime env.currentTime →
      microsBetween st.lastDetectTime env.currentTime < 10000000 →
      FruitFreshnessCal N st env = some { ret := HI_SUCCESS, st := st, calls := [] }) ∧
    (∀ (st : TrashState) (env : CalEnv), st.lastDetectTime.tv_sec ≠ 0 →
      0 < microsBetween st.lastDetectTime env.currentTime →
      microsBetween st.lastDetectTime env.currentTime < 10000000 →
      CnnTrashClassifyCal N st env = some { ret := HI_SUCCESS, st := st, calls := [] }) := by
  refine ⟨?_, ?_, ?_, ?_⟩
  · obtain ⟨outs, h1, h2, _⟩ := (FruitFreshnessCal_gated N).run_spacing envs FruitState.init
      (fun h => absurd rfl h) hwf hsec hmono
    exact ⟨outs, h1, h2⟩
  · obtain ⟨outs, h1, h2, _⟩ := (CnnTrashClassifyCal_gated N).run_spacing envs TrashState.init
      (fun h => absurd rfl h) hwf hsec hmono
    exact ⟨outs, h1, h2⟩
  · intro st env h0 h1 h2
    exact FruitFreshnessCal_skip N st env (skipsDetection_of_between _ _ h0 h1 h2)
  · intro st env h0 h1 h2
    exact CnnTrashClassifyCal_skip N st env (skipsDetection_of_between _ _ h0 h1 h2)

/-- Witness for C8 as the code has it: calls at 100 s, 104 s, 110 s, 110 s and
125 s. -/
theorem cycle_min_spacing_witness :
    ∃ outs, runCycles (FruitFreshnessCal 256) FruitState.init
        [envAt 100 0, envAt 104 0, envAt 110 0, envAt 110 0, envAt 125 0] = some outs ∧
      List.Pairwise Spaced (executedTimes
        [envAt 100 0, envAt 104 0, envAt 110 0, envAt 110 0, envAt 125 0] outs) :=
  (cycle_min_spacing 256 [envAt 100 0, envAt 104 0, envAt 110 0, envAt 110 0, envAt 125 0]
    (by decide) (by decide) (by decide)).1

/-- C8 as stated fails in two ways. Two calls at the same time 100 s are both
executed, zero seconds apart: the gate stops a call only when the elapsed time
is above zero. And after a run at 0 s, the call at 5 s is executed: a stored
seconds field of zero reads as "never run". -/
theorem cycle_min_spacing_counterexample :
    (runCycles (FruitFreshnessCal 256) FruitState.init [envAt 100 0, envAt 100 0]).map
        (fun outs => executedTimes [envAt 100 0, envAt 100 0] outs)
        = some [⟨100, 0⟩, ⟨100, 0⟩] ∧
      (runCycles (CnnTrashClassifyCal 256) TrashState.init [envAt 100 0, envAt 100 0]).map
        (fun outs => executedTimes [envAt 100 0, envAt 100 0] outs)
        = some [⟨100, 0⟩, ⟨100, 0⟩] ∧
      (runCycles (FruitFreshnessCal 256) FruitState.init [envAt 0 0, envAt 5 0]).map
        (fun outs => executedTimes [envAt 0 0, envAt 5 0] outs)
        = some [⟨0, 0⟩, ⟨5, 0⟩] := by
  decide

/-! ## The claims on the publish step, the return codes and the resources -/

theorem overlayUpdates_changed (text : String) :
    overlayUpdates [Call.MppFrmResize, Call.FrmToOrigImg, Call.ImgYuvCrop, Call.CnnCalImg,
      Call.OsdsSetRgn text 20 20, Call.HI_MPI_VPSS_SendFrame, Call.IveImgDestroy,
      Call.MppFrmDestroy] = 1 := rfl

theorem overlayUpdates_unchanged :
    overlayUpdates [Call.MppFrmResize, Call.FrmToOrigImg, Call.ImgYuvCrop, Call.CnnCalImg,
      Call.IveImgDestroy, Call.MppFrmDestroy] = 0 := rfl

theorem FruitFreshnessCal_not_publish (N : Nat) (st : FruitState) (env : CalEnv)
    (hg : skipsDetection st.lastDetectTime env.currentTime = false)
    (hlen : env.resLenOk) (hn : ¬ env.reachesPublish) :
    ∃ out, FruitFreshnessCal N st env = some out ∧ overlayUpdates out.calls = 0 ∧
      out.st = { lastDetectTime := env.currentTime, prevOsd := st.prevOsd } := by
  obtain ⟨f1, f2, f3, f4⟩ := FruitFreshnessCal_fail N st env hg
  rcases reachesPublish_or_fails env hlen with h | h | h | h | h
  · exact absurd h hn
  · exact ⟨_, f1 h, rfl, rfl⟩
  · exact ⟨_, f2 h.1 h.2, rfl, rfl⟩
  · exact ⟨_, f3 h.1 h.2.1 h.2.2, rfl, rfl⟩
  · exact ⟨_, f4 h.1 h.2.1 h.2.2.1 h.2.2.2, rfl, rfl⟩

/-- The publish step along a sequence of calls. -/
theorem FruitFreshnessCal_publish_run (N : Nat) :
    ∀ (envs : List CalEnv) (st : FruitState),
      (∀ env ∈ envs, env.resLenOk) →
      ∃ outs, runCycles (FruitFreshnessCal N) st envs = some outs ∧
        outs.map (fun out => overlayUpdates out.calls)
          = specOverlayUpdates st.prevOsd (cycleStatuses N st.lastDetectTime envs) ∧
        outs.map (fun out => out.st.prevOsd)
          = specPublished st.prevOsd (cycleStatuses N st.lastDetectTime envs) := by
  intro envs
  induction envs with
  | nil =>
    intro st _
    exact ⟨[], rfl, rfl, rfl⟩
  | cons env envs ih =>
    intro st hwf
    have hwf' : ∀ e ∈ envs, e.resLenOk := fun e he => hwf e (List.mem_cons_of_mem _ he)
    have hlen : env.resLenOk := hwf env (List.mem_cons_self _ _)
    by_cases hg : skipsDetection st.lastDetectTime env.currentTime = true
    · have hout := FruitFreshnessCal_skip N st env hg
      obtain ⟨outs, houts, hupd, hprev⟩ := ih st hwf'
      refine ⟨{ ret := HI_SUCCESS, st := st, calls := [] } :: outs, ?_, ?_, ?_⟩
      · simp only [runCycles, hout, houts, Option.map_some']
      · simp only [List.map_cons, hupd, cycleStatuses, hg, if_true, specOverlayUpdates]
        rfl
      · simp only [List.map_cons, hprev, cycleStatuses, hg, if_true, specPublished]
    · have hg' : skipsDetection st.lastDetectTime env.currentTime = false := by simpa using hg
      by_cases hreach : env.reachesPublish
      · obtain ⟨p1, p2⟩ := FruitFreshnessCal_publish N st env hg' hreach
        by_cases hs : statusOf N env = st.prevOsd
        · obtain ⟨out, hout, hcalls, hst⟩ : ∃ out, FruitFreshnessCal N st env = some out ∧
              overlayUpdates out.calls = 0 ∧
              out.st = { lastDetectTime := env.currentTime, prevOsd := st.prevOsd } :=
            ⟨_, p2 hs, rfl, rfl⟩
          obtain ⟨outs, houts, hupd, hprev⟩ := ih out.st hwf'
          rw [hst] at hupd hprev
          refine ⟨out :: outs, ?_, ?_, ?_⟩
          · simp only [runCycles, hout, houts, Option.map_some']
          · simp only [List.map_cons, hcalls, hupd, cycleStatuses, hg', Bool.false_eq_true,
              if_false, if_pos hreach, specOverlayUpdates, hs, ne_eq, not_true_eq_false]
          · simp only [List.map_cons, hprev, hst, cycleStatuses, hg', Bool.false_eq_true,
              if_false, if_pos hreach, specPublished, hs]
        · obtain ⟨out, hout, hcalls, hst⟩ : ∃ out, FruitFreshnessCal N st env = some out ∧
              overlayUpdates out.calls = 1 ∧
              out.st = { lastDetectTime := env.currentTime, prevOsd := statusOf N env } :=
            ⟨_, p1 hs, rfl, rfl⟩
          obtain ⟨outs, houts, hupd, hprev⟩ := ih out.st hwf'
          rw [hst] at hupd hprev
          refine ⟨out :: outs, ?_, ?_, ?_⟩
          · simp only [runCycles, hout, houts, Option.map_some']
          · simp only [List.map_cons, hcalls, hupd, cycleStatuses, hg', Bool.false_eq_true,
              if_false, if_pos hreach, specOverlayUpdates, hs, ne_eq, not_false_eq_true,
              if_true]
          · simp only [List.map_cons, hprev, hst, cycleStatuses, hg', Bool.false_eq_true,
              if_false, if_pos hreach, specPublished]
      · obtain ⟨out, hout, hcalls, hst⟩ := FruitFreshnessCal_not_publish N st env hg' hlen hreach
        obtain ⟨outs, houts, hupd, hprev⟩ := ih out.st hwf'
        rw [hst] at hupd hprev
        refine ⟨out :: outs, ?_, ?_, ?_⟩
        · simp only [runCycles, hout, houts, Option.map_some']
        · simp only [List.map_cons, hcalls, hupd, cycleStatuses, hg', Bool.false_eq_true,
            if_false, if_neg hreach, specOverlayUpdates]
        · simp only [List.map_cons, hprev, hst, cycleStatuses, hg', Bool.false_eq_true,
            if_false, if_neg hreach, specPublished]

theorem cycleStatuses_nonempty (N : Nat) (hN : 2 ≤ N) :
    ∀ (envs : List CalEnv) (last : Timeval), (∀ env ∈ envs, env.resLenOk) →
      ∀ s, some s ∈ cycleStatuses N last envs → s ≠ "" := by
  intro envs
  induction envs with
  | nil =>
    intro last _ s hs
    simp [cycleStatuses] at hs
  | cons env envs ih =>
    intro last hwf s hs
    have hwf' : ∀ e ∈ envs, e.resLenOk := fun e he => hwf e (List.mem_cons_of_mem _ he)
    unfold cycleStatuses at hs
    split_ifs at hs with hg hreach
    · rcases List.mem_cons.1 hs with h | h
      · simp at h
      · exact ih last hwf' s h
    · rcases List.mem_cons.1 hs with h | h
      · simp only [Option.some.injEq] at h
        obtain ⟨flag, _, _, hbuf, _, hnonempty⟩ :=
          FruitFreshnessFlag_resBuf N env (hwf env (List.mem_cons_self _ _))
        rw [h, ← hbuf]
        exact hnonempty hN
      · exact ih env.currentTime hwf' s h
    · rcases List.mem_cons.1 hs with h | h
      · simp at h
      · exact ih env.currentTime hwf' s h

theorem specOverlayUpdates_sum_pair (s : String) (hs : s ≠ "") :
    ∀ (l : List (Option String)) (prev : String), l.reduceOption = [s, s] →
      (prev = "" ∨ prev = s) →
      (specOverlayUpdates prev l).sum = if prev = "" then 1 else 0 := by
  have hnil : ∀ (l : List (Option String)) (prev : String), l.reduceOption = [] →
      (specOverlayUpdates prev l).sum = 0 := by
    intro l
    induction l with
    | nil =>
      intro prev _
      rfl
    | cons x l ih =>
      intro prev h
      cases x with
      | none =>
        rw [List.reduceOption_cons_of_none] at h
        simp [specOverlayUpdates, ih prev h]
      | some t =>
        rw [List.reduceOption_cons_of_some] at h
        simp at h
  have hone : ∀ (l : List (Option String)), l.reduceOption = [s] →
      (specOverlayUpdates s l).sum = 0 := by
    intro l
    induction l with
    | nil =>
      intro h
      simp at h
    | cons x l ih =>
      intro h
      cases x with
      | none =>
        rw [List.reduceOption_cons_of_none] at h
        simp [specOverlayUpdates, ih h]
      | some t =>
        rw [List.reduceOption_cons_of_some] at h
        simp only [List.cons.injEq] at h
        obtain ⟨ht, hl⟩ := h
        rw [ht]
        simp [specOverlayUpdates, hnil l s hl]
  intro l
  induction l with
  | nil =>
    intro prev h
    simp at h
  | cons x l ih =>
    intro prev h hprev
    cases x with
    | none =>
      rw [List.reduceOption_cons_of_none] at h
      simp [specOverlayUpdates, ih prev h hprev]
    | some t =>
      rw [List.reduceOption_cons_of_some] at h
      simp only [List.cons.injEq] at h
      obtain ⟨ht, hl⟩ := h
      rw [ht]
      rcases hprev with hp | hp
      · rw [hp]
        simp [specOverlayUpdates, hs, hone l hl]
      · rw [hp]
        simp [specOverlayUpdates, hs, hone l hl]

/-- C3: in `FruitFreshnessCal`, along every sequence of calls (the inference
honouring the length it is given), from any static variables, a cycle that is
executed and gets to the publish step makes one overlay update (`OsdsSetRgn`)
when its status differs from the one published before it and none when it is
the same, and after it the stored previous status is its status; the other
calls make no overlay update and leave the stored status as it is. From an empty
previous status (the initial one), when the executed cycles that get to the
publish step are two and have the same status, there is exactly one overlay
update (the buffer holding at least one character). -/
theorem FruitFreshnessCal_change_gated (N : Nat) (st : FruitState) (envs : List CalEnv)
    (hwf : ∀ env ∈ envs, env.resLenOk) :
    ∃ outs, runCycles (FruitFreshnessCal N) st envs = some outs ∧
      outs.map (fun out => overlayUpdates out.calls)
        = specOverlayUpdates st.prevOsd (cycleStatuses N st.lastDetectTime envs) ∧
      outs.map (fun out => out.st.prevOsd)
        = specPublished st.prevOsd (cycleStatuses N st.lastDetectTime envs) ∧
      (st.prevOsd = "" → 2 ≤ N → ∀ s,
        (cycleStatuses N st.lastDetectTime envs).reduceOption = [s, s] →
        (outs.map (fun out => overlayUpdates out.calls)).sum = 1) := by
  obtain ⟨outs, houts, hupd, hprev⟩ := FruitFreshnessCal_publish_run N envs st hwf
  refine ⟨outs, houts, hupd, hprev, ?_⟩
  intro hst hN s hss
  have hmem : some s ∈ cycleStatuses N st.lastDetectTime envs := by
    rw [← List.reduceOption_mem_iff, hss]
    exact List.mem_cons_self _ _
  have hne : s ≠ "" := cycleStatuses_nonempty N hN envs st.lastDetectTime hwf s hmem
  rw [hupd, specOverlayUpdates_sum_pair s hne _ _ hss (Or.inl hst), if_pos hst]

/-- Witness for C3: from the initial static variables, executed cycles at 100 s
and 110 s, both with the status `"fresh apple 0.85"`, and a skipped call
between them: one overlay update. -/
theorem FruitFreshnessCal_change_gated_witness :
    cycleStatuses 256 FruitState.init.lastDetectTime [envAt 100 0, envAt 105 0, envAt 110 0]
      = [some "fresh apple 0.85", none, some "fresh apple 0.85"] ∧
    ∃ outs, runCycles (FruitFreshnessCal 256) FruitState.init
        [envAt 100 0, envAt 105 0, envAt 110 0] = some outs ∧
      (outs.map (fun out => overlayUpdates out.calls)).sum = 1 := by
  obtain ⟨outs, h1, _, _, h4⟩ := FruitFreshnessCal_change_gated 256 FruitState.init
    [envAt 100 0, envAt 105 0, envAt 110 0] (by decide)
  exact ⟨by decide, outs, h1, h4 rfl (by decide) "fresh apple 0.85" (by decide)⟩

/-- C6 fails on the code: when the inference fails after the resize and the
crop have succeeded, both cycles return at once; the resized frame and the
cropped image are acquired and neither `MppFrmDestroy` nor `IveImgDestroy` is
called. -/
theorem cycle_leaks_on_inference_failure :
    FruitFreshnessCal 256 FruitState.init { envAt 100 0 with cnnRet := -1 }
      = some { ret := -1, st := { lastDetectTime := ⟨100, 0⟩, prevOsd := "" },
               calls := [Call.MppFrmResize, Call.FrmToOrigImg, Call.ImgYuvCrop,
                         Call.CnnCalImg] } ∧
    CnnTrashClassifyCal 256 TrashState.init { envAt 100 0 with cnnRet := -1 }
      = some { ret := -1, st := { lastDetectTime := ⟨100, 0⟩ },
               calls := [Call.MppFrmResize, Call.FrmToOrigImg, Call.ImgYuvCrop,
                         Call.CnnCalImg] } := by
  decide

end FruitFresh
